import Mathlib

/-!
Egg timer (`script.js`): shallow embedding and verified properties.

The script keeps five variables (`timer`, `totalSeconds`, `remainingSeconds`,
`isRunning`, `finished`) and reads and writes a handful of DOM properties.  The
embedding makes all of them fields of one record, `State`, and every function of
the script a function `State → State`.

Modelling conventions

* JavaScript numbers are IEEE 754 doubles.  A finite double is the rational it
  stands for, and `toDouble` rounds a rational to the nearest double, ties to
  even, with a 53 bit significand, the smallest exponent `-1074` and an infinity
  from `2^1024` on.  The two zeros are one value: the script never divides by a
  zero whose sign matters and prints both as `0`.
* The variables `totalSeconds` and `remainingSeconds` only ever hold whole
  doubles, infinities or NaN; they have the type `Num`.  Quotients and the
  percentage are general doubles, of type `Dbl`.
* `parseInt(str, 10)` reads the digits as an exact whole number (`parseWhole`)
  and stores the nearest double.
* `String(x)` for a whole double is its decimal numeral below `10^21` and the
  shortest significand with an exponent from there on (`Num.toJSString`).
* `setInterval`/`setTimeout` take handles from one counter (`nextHandle`); the
  host's table of active timers is the pair `liveIntervals`, `liveTimeouts`.
* The HTML page is not part of the sources: what the document supplies before the
  script runs is the parameter `Page`.
* `step` runs the listener of an event whatever the state of its control, so the
  reachable states include every state the page can be in; `dispatch` is what the
  page does with a click or a change, which reaches the listener only when the
  control is not disabled.
-/

namespace EggTimer

/-! ## Doubles -/

/-- A double: NaN, an infinity, or a finite value. -/
inductive Dbl where
  | nan
  | posInf
  | negInf
  | fin (q : ℚ)
  deriving DecidableEq

/-- Two to the power `e`. -/
def exp2 (e : Int) : ℚ :=
  if 0 ≤ e then ((2 ^ e.toNat : Nat) : ℚ) else 1 / ((2 ^ (-e).toNat : Nat) : ℚ)

/-- Position of the leading bit of `n`, found by halving at most `fuel` times. -/
def bitPos : Nat → Nat → Nat
  | 0, _ => 0
  | fuel + 1, n => if 2 ≤ n then bitPos fuel (n / 2) + 1 else 0

/-- For `q > 0`, the `k` with `2^k ≤ q < 2^(k+1)`. -/
def floorLog2 (q : ℚ) : Int :=
  let d : Int := (bitPos q.num.natAbs q.num.natAbs : Int) - (bitPos q.den q.den : Int)
  if exp2 d ≤ q then d else d - 1

/-- Nearest whole number, ties to the even one. -/
def roundHalfEven (x : ℚ) : Int :=
  let f := Rat.floor x
  if x - f < 1 / 2 then f
  else if 1 / 2 < x - f then f + 1
  else if f % 2 = 0 then f else f + 1

/-- Exponent of the last place of the double nearest to `q > 0`. -/
def expo (q : ℚ) : Int :=
  max (floorLog2 q - 52) (-1074)

/-- Nearest multiple of `2^e`, ties to even. -/
def roundAt (e : Int) (q : ℚ) : ℚ :=
  (roundHalfEven (q / exp2 e) : ℚ) * exp2 e

/-- The double nearest to the rational `q` (round to nearest, ties to even). -/
def toDouble (q : ℚ) : Dbl :=
  if q = 0 then .fin 0
  else if 0 < q then
    (if exp2 1024 ≤ roundAt (expo q) q then .posInf else .fin (roundAt (expo q) q))
  else
    (if exp2 1024 ≤ roundAt (expo (-q)) (-q) then .negInf
     else .fin (-(roundAt (expo (-q)) (-q))))

/-- A whole-valued JavaScript number: NaN, an infinity, or a whole number held in a
double.  The two zeros are not told apart: the script never divides by zero and
prints both as `0`. -/
inductive Num where
  | nan
  | posInf
  | negInf
  | int (v : Int)
  deriving DecidableEq, Repr

/-- The call `Math.floor(x)`. -/
def Dbl.floor : Dbl → Num
  | .nan => .nan
  | .posInf => .posInf
  | .negInf => .negInf
  | .fin q => .int (Rat.floor q)

/-- The double nearest to the whole number `n`, itself a whole number. -/
def roundInt (n : Int) : Num :=
  Dbl.floor (toDouble (n : ℚ))

/-- The comparison `a < b`. -/
def Num.lt (a b : Num) : Bool :=
  match a, b with
  | .nan, _ => false
  | _, .nan => false
  | .posInf, _ => false
  | _, .negInf => false
  | .negInf, _ => true
  | .int _, .posInf => true
  | .int x, .int y => decide (x < y)

/-- The comparison `a > b`. -/
def Num.gt (a b : Num) : Bool := Num.lt b a

/-- The comparison `a === b`. -/
def Num.strictEq (a b : Num) : Bool :=
  match a, b with
  | .nan, _ => false
  | _, .nan => false
  | x, y => decide (x = y)

/-- The comparison `a <= b`. -/
def Num.le (a b : Num) : Bool := Num.lt a b || Num.strictEq a b

/-- The call `isNaN(a)`. -/
def Num.isNaN (a : Num) : Bool :=
  match a with
  | .nan => true
  | _ => false

/-- Sign of a number that is not NaN: 1, 0 or -1. -/
def Num.sgn : Num → Int
  | .nan => 0
  | .posInf => 1
  | .negInf => -1
  | .int v => Int.sign v

/-- The sum `a + b`. -/
def Num.add (a b : Num) : Num :=
  match a, b with
  | .nan, _ => .nan
  | _, .nan => .nan
  | .posInf, .negInf => .nan
  | .negInf, .posInf => .nan
  | .posInf, _ => .posInf
  | _, .posInf => .posInf
  | .negInf, _ => .negInf
  | _, .negInf => .negInf
  | .int x, .int y => roundInt (x + y)

/-- The difference `a - b`. -/
def Num.sub (a b : Num) : Num :=
  match a, b with
  | .nan, _ => .nan
  | _, .nan => .nan
  | .posInf, .posInf => .nan
  | .negInf, .negInf => .nan
  | .posInf, _ => .posInf
  | .negInf, _ => .negInf
  | _, .posInf => .negInf
  | _, .negInf => .posInf
  | .int x, .int y => roundInt (x - y)

/-- The product `a * b`. -/
def Num.mul (a b : Num) : Num :=
  match a, b with
  | .nan, _ => .nan
  | _, .nan => .nan
  | .int x, .int y => roundInt (x * y)
  | a, b =>
    if a.sgn * b.sgn = 0 then .nan
    else if 0 < a.sgn * b.sgn then .posInf
    else .negInf

/-- The remainder `a % b`, with the sign of `a`. -/
def Num.mod (a b : Num) : Num :=
  match a, b with
  | .nan, _ => .nan
  | _, .nan => .nan
  | .posInf, _ => .nan
  | .negInf, _ => .nan
  | .int x, .posInf => .int x
  | .int x, .negInf => .int x
  | .int x, .int y => if y = 0 then .nan else .int (Int.tmod x y)

/-- The quotient `a / b` of two whole-valued numbers, a double.  A zero divisor is
taken as `+0`; the script divides only by 60 and by a positive `totalSeconds`. -/
def Num.div (a b : Num) : Dbl :=
  match a, b with
  | .nan, _ => .nan
  | _, .nan => .nan
  | .posInf, .int y => if 0 ≤ y then .posInf else .negInf
  | .negInf, .int y => if 0 ≤ y then .negInf else .posInf
  | .int _, .posInf => .fin 0
  | .int _, .negInf => .fin 0
  | .int x, .int y =>
    if y = 0 then (if x = 0 then .nan else if 0 < x then .posInf else .negInf)
    else toDouble ((x : ℚ) / (y : ℚ))
  | _, _ => .nan

/-- Sign of a double that is not NaN. -/
def Dbl.sgn : Dbl → Int
  | .nan => 0
  | .posInf => 1
  | .negInf => -1
  | .fin q => if 0 < q then 1 else if q < 0 then -1 else 0

/-- The product `a * b` of two doubles. -/
def Dbl.mul (a b : Dbl) : Dbl :=
  match a, b with
  | .nan, _ => .nan
  | _, .nan => .nan
  | .fin x, .fin y => toDouble (x * y)
  | a, b =>
    if a.sgn * b.sgn = 0 then .nan
    else if 0 < a.sgn * b.sgn then .posInf
    else .negInf

/-- The comparison `a <= b` of two doubles. -/
def Dbl.le (a b : Dbl) : Bool :=
  match a, b with
  | .nan, _ => false
  | _, .nan => false
  | .negInf, _ => true
  | _, .posInf => true
  | .posInf, _ => false
  | _, .negInf => false
  | .fin x, .fin y => decide (x ≤ y)

/-- Search for the shortest decimal significand of a whole double `n` with `p + 1`
decimal digits: the least `k ≥ 1` with a `k` digit `s` such that
`s * 10^(p + 1 - k)` rounds to `n`, tried from `k` upwards.  Among two candidates the
nearer one wins, the even one on a tie.  The result is the pair of `s` and `k`. -/
def shortestDigits (n p : Nat) : Nat → Nat → Nat × Nat
  | 0, k => (n / 10 ^ (p + 1 - k), k)
  | fuel + 1, k =>
    let scale := 10 ^ (p + 1 - k)
    let lo := n / scale
    let okLo := roundInt ((lo * scale : Nat) : Int) == .int (n : Int)
    let okHi := decide (lo + 1 < 10 ^ k) &&
      roundInt (((lo + 1) * scale : Nat) : Int) == .int (n : Int)
    if okLo && okHi then
      (if n - lo * scale < (lo + 1) * scale - n then (lo, k)
       else if (lo + 1) * scale - n < n - lo * scale then (lo + 1, k)
       else if lo % 2 = 0 then (lo, k) else (lo + 1, k))
    else if okLo then (lo, k)
    else if okHi then (lo + 1, k)
    else shortestDigits n p fuel (k + 1)

/-- The text `String(n)` for a whole double `n ≥ 0`.  Below `2^53` every whole
number is a double and its own shortest numeral.  From there on the digits are the
shortest significand that still rounds to `n` (one digit `1` with the exponent one
higher when the next power of ten rounds to `n`), followed by zeros below `10^21`
and by an exponent from `10^21` on. -/
def natToJSString (n : Nat) : String :=
  if n < 9007199254740992 then toString n
  else
    let p := (toString n).length - 1
    if roundInt ((10 ^ (p + 1) : Nat) : Int) == .int (n : Int) then
      (if p + 1 < 21 then toString (10 ^ (p + 1)) else "1e+" ++ toString (p + 1))
    else
      let sk := shortestDigits n p 17 1
      if p < 21 then toString sk.1 ++ String.mk (List.replicate (p + 1 - sk.2) '0')
      else
        let mantissa := match (toString sk.1).data with
          | [] => []
          | [d] => [d]
          | d :: rest => d :: '.' :: rest
        String.mk mantissa ++ "e+" ++ toString p

/-- The text `String(x)`. -/
def Num.toJSString : Num → String
  | .nan => "NaN"
  | .posInf => "Infinity"
  | .negInf => "-Infinity"
  | .int v => if v < 0 then "-" ++ natToJSString v.natAbs else natToJSString v.natAbs

/-! ## Primitives of the host language -/

/-- The characters `parseInt` skips in front of the number: ECMAScript white space
and line terminators. -/
def isStrWhiteSpaceChar (c : Char) : Bool :=
  let n := c.toNat
  n == 0x09 || n == 0x0A || n == 0x0B || n == 0x0C || n == 0x0D || n == 0x20 ||
  n == 0xA0 || n == 0x1680 || (0x2000 ≤ n && n ≤ 0x200A) || n == 0x2028 ||
  n == 0x2029 || n == 0x202F || n == 0x205F || n == 0x3000 || n == 0xFEFF

/-- Value of a run of decimal digits, most significant first. -/
def digitsValue (ds : List Char) : Nat :=
  ds.foldl (fun acc c => 10 * acc + (c.toNat - 48)) 0

/-- The whole number `parseInt(str, 10)` reads before it is stored in a double:
skip white space, read an optional sign, then the longest run of decimal digits;
`none` when that run is empty. -/
def parseWhole (str : String) : Option Int :=
  let t := str.data.dropWhile isStrWhiteSpaceChar
  let negative := t.head? == some '-'
  let u := match t with
    | '-' :: r => r
    | '+' :: r => r
    | _ => t
  let z := u.takeWhile Char.isDigit
  if z.isEmpty then none
  else if negative then some (-(digitsValue z : Int))
  else some (digitsValue z : Int)

/-- The call `parseInt(str, 10)`: NaN when no digits are read, else the double
nearest to the whole number read (an infinity from `2^1024` on).  The language lets
an engine treat the digits after the twentieth as zeros; here every digit counts. -/
def parseInt (str : String) : Num :=
  match parseWhole str with
  | none => .nan
  | some n => roundInt n

/-- The expression `x || 0` for a number `x`: NaN and zero give `0`. -/
def orZero (x : Num) : Num :=
  if x.isNaN || x == .int 0 then .int 0 else x

/-- The method `padStart(n, c)` on a string. -/
def padStart (str : String) (n : Nat) (c : Char) : String :=
  String.mk (List.replicate (n - str.length) c) ++ str

/-- The table `alarmSounds`; `none` is `undefined`.  Only the three own keys are
modelled, not the properties an object literal inherits. -/
def alarmSounds (key : String) : Option String :=
  if key = "alarm_clock" then
    some "https://actions.google.com/sounds/v1/alarms/alarm_clock.ogg"
  else if key = "bell" then
    some "https://actions.google.com/sounds/v1/bells/bell_ring.ogg"
  else if key = "digital_watch_alarm" then
    some "https://actions.google.com/sounds/v1/alarms/digital_watch_alarm_long.ogg"
  else none

/-! ## State -/

/-- One element of `presetBtns`. -/
structure PresetBtn where
  dataMinutes : String
  disabled : Bool
  deriving DecidableEq, Repr

/-- Script variables, the host's timer table and the DOM properties the script
touches. -/
structure State where
  /-- Variable `timer`; `none` is `undefined`. -/
  timer : Option Nat
  totalSeconds : Num
  remainingSeconds : Num
  isRunning : Bool
  finished : Bool
  /-- Handles of the intervals that are scheduled and not cleared. -/
  liveIntervals : List Nat
  /-- Handles of the timeouts that are scheduled and have neither fired nor been
  cleared. -/
  liveTimeouts : List Nat
  /-- Next handle the host gives out. -/
  nextHandle : Nat
  /-- Property `minutesInput.value`. -/
  minutesValue : String
  minutesDisabled : Bool
  /-- Property `secondsInput.value`. -/
  secondsValue : String
  secondsDisabled : Bool
  /-- Property `countdownDisplay.textContent`. -/
  countdownText : String
  startDisabled : Bool
  pauseDisabled : Bool
  resetDisabled : Bool
  presetBtns : List PresetBtn
  /-- Property `alarmSelect.value`. -/
  alarmSelectValue : String
  alarmSelectDisabled : Bool
  /-- Property `alarmSound.src`; `none` is `undefined`. -/
  alarmSrc : Option String
  /-- Number of calls of `alarmSound.play()` so far. -/
  playCount : Nat
  /-- The number in `progressBar.style.width` and in `aria-valuenow`. -/
  progressPercent : Dbl
  ariaValueMax : Int
  ariaValueMin : Int
  /-- Class `yellow` of the progress bar. -/
  yellow : Bool
  /-- Class `red` of the progress bar. -/
  red : Bool
  /-- Class `timer-finished` of the container. -/
  timerFinishedClass : Bool
  /-- Number of calls of `startBtn.focus()` so far. -/
  startFocusCalls : Nat
  /-- Property `darkModeToggle.checked`. -/
  darkChecked : Bool
  /-- Class `dark-mode` of the body. -/
  darkModeClass : Bool
  deriving DecidableEq

/-! ## The functions of the script -/

/-- Removing the handle held by `timer` from a table of active timers: nothing
happens when `timer` is undefined or the handle is not in the table. -/
def clearHandle (timer : Option Nat) (table : List Nat) : List Nat :=
  match timer with
  | none => table
  | some h => table.filter (fun x => x != h)

/-- The call `clearInterval(timer)`.  Intervals and timeouts share their handles, so
the handle leaves both tables. -/
def clearInterval (s : State) : State :=
  { s with liveIntervals := clearHandle s.timer s.liveIntervals
           liveTimeouts := clearHandle s.timer s.liveTimeouts }

/-- Function `focusFirstButton`. -/
def focusFirstButton (s : State) : State :=
  { s with startFocusCalls := s.startFocusCalls + 1 }

/-- Function `updateProgressBar`. -/
def updateProgressBar (s : State) : State :=
  let percent : Dbl :=
    if Num.gt s.totalSeconds (.int 0) then
      Dbl.mul (Num.div (Num.sub s.totalSeconds s.remainingSeconds) s.totalSeconds)
        (toDouble 100)
    else .fin 0
  let s1 := { s with progressPercent := percent, ariaValueMax := 100, ariaValueMin := 0
                     yellow := false, red := false }
  if Num.gt s1.totalSeconds (.int 0) then
    let ratio : Dbl := Num.div s1.remainingSeconds s1.totalSeconds
    if Dbl.le ratio (toDouble (33 / 100)) then { s1 with red := true }
    else if Dbl.le ratio (toDouble (66 / 100)) then { s1 with yellow := true }
    else s1
  else s1

/-- Function `updateDisplay`. -/
def updateDisplay (s : State) (seconds : Num) : State :=
  let min := padStart (Dbl.floor (Num.div seconds (.int 60))).toJSString 2 '0'
  let sec := padStart (Num.mod seconds (.int 60)).toJSString 2 '0'
  updateProgressBar { s with countdownText := min ++ ":" ++ sec }

/-- Function `updateButtonStates`. -/
def updateButtonStates (s : State) : State :=
  { s with
    startDisabled := s.isRunning || s.finished
    pauseDisabled := !s.isRunning || s.finished
    resetDisabled :=
      (!s.isRunning && Num.strictEq s.remainingSeconds s.totalSeconds) || s.finished
    presetBtns := s.presetBtns.map (fun btn => { btn with disabled := s.isRunning })
    minutesDisabled := s.isRunning
    alarmSelectDisabled := s.isRunning }

/-- Function `showTimerFinished`: add the class and schedule its removal. -/
def showTimerFinished (s : State) : State :=
  { s with timerFinishedClass := true
           liveTimeouts := s.liveTimeouts ++ [s.nextHandle]
           nextHandle := s.nextHandle + 1 }

/-- Function `setAlarmSound`. -/
def setAlarmSound (s : State) : State :=
  { s with alarmSrc := alarmSounds s.alarmSelectValue }

/-- The arrow function `startTimer` hands to `setInterval`. -/
def tickCallback (s : State) : State :=
  if Num.gt s.remainingSeconds (.int 0) then
    let s1 := { s with remainingSeconds := Num.sub s.remainingSeconds (.int 1) }
    updateDisplay s1 s1.remainingSeconds
  else
    let s1 := clearInterval s
    let s2 := updateButtonStates { s1 with isRunning := false, finished := true }
    let s3 := setAlarmSound s2
    let s4 := { s3 with playCount := s3.playCount + 1 }
    let s5 := showTimerFinished s4
    focusFirstButton s5

/-- Function `startTimer`. -/
def startTimer (s : State) : State :=
  if s.isRunning || s.finished then s
  else
    let s1 := updateButtonStates { s with isRunning := true }
    { s1 with timer := some s1.nextHandle
              liveIntervals := s1.liveIntervals ++ [s1.nextHandle]
              nextHandle := s1.nextHandle + 1 }

/-- Function `pauseTimer`. -/
def pauseTimer (s : State) : State :=
  if !s.isRunning then s
  else
    let s1 := clearInterval s
    updateButtonStates { s1 with isRunning := false }

/-- The statement `if (isNaN(x) || x < 0) x = 0;` of `getInputTime`. -/
def nonNegative (x : Num) : Num :=
  if x.isNaN || Num.lt x (.int 0) then .int 0 else x

/-- The statement `if (sec > 59) sec = 59;` of `getInputTime`. -/
def capSeconds (sec : Num) : Num :=
  if Num.gt sec (.int 59) then .int 59 else sec

/-- Function `getInputTime`: the state after the two inputs are rewritten, and the
value returned. -/
def getInputTime (s : State) : State × Num :=
  let min := nonNegative (parseInt s.minutesValue)
  let sec := capSeconds (nonNegative (parseInt s.secondsValue))
  ({ s with minutesValue := min.toJSString, secondsValue := sec.toJSString },
    Num.add (Num.mul min (.int 60)) sec)

/-- Function `resetTimer`. -/
def resetTimer (s : State) : State :=
  let s1 := clearInterval s
  let s2 := { s1 with isRunning := false, finished := false }
  let r := getInputTime s2
  let s3 := { r.1 with remainingSeconds := r.2 }
  let s4 := { s3 with totalSeconds := s3.remainingSeconds }
  let s5 := updateDisplay s4 s4.remainingSeconds
  let s6 := updateButtonStates s5
  { s6 with timerFinishedClass := false }

/-- The click listener of a preset button whose `data-minutes` is `dataMinutes`. -/
def presetClick (s : State) (dataMinutes : String) : State :=
  resetTimer { s with minutesValue := dataMinutes
                      secondsValue := (Num.int 0).toJSString }

/-- The change listener of the dark mode toggle. -/
def darkModeChange (s : State) : State :=
  { s with darkModeClass := s.darkChecked }

/-- The callback `showTimerFinished` hands to `setTimeout`. -/
def cueCallback (s : State) : State :=
  { s with timerFinishedClass := false }

/-! ## Page load and events -/

/-- What the document supplies before the script runs and the script does not
overwrite while loading. -/
structure Page where
  minutesValue : String
  secondsValue : String
  secondsDisabled : Bool
  /-- The `data-minutes` attributes of the preset buttons, in document order. -/
  presetMinutes : List String
  alarmSelectValue : String
  timerFinishedClass : Bool
  darkChecked : Bool
  darkModeClass : Bool
  deriving DecidableEq, Repr

/-- The state once the top level of the script has run: the variable initialisers
of lines 22 to 26, then `setAlarmSound()`, `updateDisplay(remainingSeconds)` and
`updateButtonStates()`.  Fields the three calls overwrite start at a placeholder. -/
def load (p : Page) : State :=
  let total := Num.add (Num.mul (orZero (parseInt p.minutesValue)) (.int 60))
    (orZero (parseInt p.secondsValue))
  let s0 : State :=
    { timer := none, totalSeconds := total, remainingSeconds := total
      isRunning := false, finished := false
      liveIntervals := [], liveTimeouts := [], nextHandle := 1
      minutesValue := p.minutesValue, minutesDisabled := false
      secondsValue := p.secondsValue, secondsDisabled := p.secondsDisabled
      countdownText := "", startDisabled := false, pauseDisabled := false
      resetDisabled := false
      presetBtns := p.presetMinutes.map (fun m => { dataMinutes := m, disabled := false })
      alarmSelectValue := p.alarmSelectValue, alarmSelectDisabled := false
      alarmSrc := none, playCount := 0
      progressPercent := .fin 0, ariaValueMax := 0, ariaValueMin := 0
      yellow := false, red := false
      timerFinishedClass := p.timerFinishedClass, startFocusCalls := 0
      darkChecked := p.darkChecked, darkModeClass := p.darkModeClass }
  let s1 := setAlarmSound s0
  let s2 := updateDisplay s1 s1.remainingSeconds
  updateButtonStates s2

/-- What can happen after load: a listener runs or a scheduled callback fires. -/
inductive Event where
  /-- Click on the start button. -/
  | start
  /-- Click on the pause button. -/
  | pause
  /-- Click on the reset button. -/
  | reset
  /-- Click on the preset button at this index. -/
  | preset (i : Nat)
  /-- The minutes input gets this content and fires `change`. -/
  | editMinutes (v : String)
  /-- The seconds input gets this content and fires `change`. -/
  | editSeconds (v : String)
  /-- The alarm selection gets this value and fires `change`. -/
  | selectAlarm (v : String)
  /-- The dark mode toggle gets this value and fires `change`. -/
  | appearance (b : Bool)
  /-- The period of the interval with this handle has elapsed. -/
  | tick (h : Nat)
  /-- The delay of the timeout with this handle has elapsed. -/
  | cueTimeout (h : Nat)
  deriving DecidableEq, Repr

/-- The listener or callback of one event runs.  A callback runs only while its
handle is active; a timeout leaves the table when it fires; a preset click needs a
button at that index.  Whether the page delivers a click or change to a disabled
control is the business of `dispatch`. -/
def step (s : State) (e : Event) : State :=
  match e with
  | .start => startTimer s
  | .pause => pauseTimer s
  | .reset => resetTimer s
  | .preset i =>
    match s.presetBtns.get? i with
    | some btn => presetClick s btn.dataMinutes
    | none => s
  | .editMinutes v => resetTimer { s with minutesValue := v }
  | .editSeconds v => resetTimer { s with secondsValue := v }
  | .selectAlarm v => setAlarmSound { s with alarmSelectValue := v }
  | .appearance b => darkModeChange { s with darkChecked := b }
  | .tick h => if h ∈ s.liveIntervals then tickCallback s else s
  | .cueTimeout h =>
    if h ∈ s.liveTimeouts then
      cueCallback { s with liveTimeouts := s.liveTimeouts.filter (fun x => x != h) }
    else s

/-- A finite sequence of events, left to right. -/
def run (s : State) (es : List Event) : State :=
  es.foldl step s

/-- Whether the page delivers the event: a click or a change reaches its listener
only on a control that is not disabled; callbacks of timers are not gated. -/
def Event.enabled (s : State) (e : Event) : Bool :=
  match e with
  | .start => !s.startDisabled
  | .pause => !s.pauseDisabled
  | .reset => !s.resetDisabled
  | .preset i =>
    match s.presetBtns.get? i with
    | some btn => !btn.disabled
    | none => false
  | .editMinutes _ => !s.minutesDisabled
  | .editSeconds _ => !s.secondsDisabled
  | .selectAlarm _ => !s.alarmSelectDisabled
  | .appearance _ => true
  | .tick _ => true
  | .cueTimeout _ => true

/-- One event as the page handles it: the listener runs if the control is enabled,
and nothing happens otherwise. -/
def dispatch (s : State) (e : Event) : State :=
  if e.enabled s then step s e else s

/-! ## Sample pages -/

/-- A page that loads with five seconds on the clock. -/
def pageFive : Page :=
  { minutesValue := "0", secondsValue := "5", secondsDisabled := false
    presetMinutes := ["3", "5", "10"], alarmSelectValue := "alarm_clock"
    timerFinishedClass := false, darkChecked := false, darkModeClass := false }

/-- A page whose minutes input holds `-1` when the script runs. -/
def pageNegative : Page :=
  { pageFive with minutesValue := "-1", secondsValue := "0" }

/-- A page that loads with nothing on the clock. -/
def pageZero : Page :=
  { pageFive with minutesValue := "0", secondsValue := "0" }

/-- A state with `totalSeconds = 100` and the given `remainingSeconds`. -/
def tierState (remaining : Int) : State :=
  { load pageZero with totalSeconds := .int 100, remainingSeconds := .int remaining }

/-! ## The validation rule in the words of the specification -/

/-- Minutes as the specification words them: the integer parsed from the minutes
input, or 0 if the input is non-numeric or the parsed value is negative. -/
def claimedMinutes (parsed : Option Int) : Int :=
  match parsed with
  | none => 0
  | some n => if n < 0 then 0 else n

/-- Seconds as the specification words them: the integer parsed from the seconds
input, replaced by 0 if non-numeric or negative and by 59 if greater than 59. -/
def claimedSeconds (parsed : Option Int) : Int :=
  match parsed with
  | none => 0
  | some n => if n < 0 then 0 else if n > 59 then 59 else n

/-! ## Predicates used in the statements -/

/-- Coupling of `isRunning`, `finished`, `timer` and the interval table. -/
def HandleInv (s : State) : Prop :=
  (s.isRunning = true →
    s.finished = false ∧ ∃ h, s.timer = some h ∧ s.liveIntervals = [h]) ∧
  (s.isRunning = false → s.liveIntervals = [])

/-- States the script can be in: a page load followed by finitely many events. -/
def Reachable (s : State) : Prop :=
  ∃ (p : Page) (es : List Event), s = run (load p) es

/-- The three button flags hold what `updateButtonStates` computes from the current
variables. -/
def ButtonsInv (s : State) : Prop :=
  s.startDisabled = (s.isRunning || s.finished) ∧
  s.pauseDisabled = (!s.isRunning || s.finished) ∧
  s.resetDisabled =
    ((!s.isRunning && Num.strictEq s.remainingSeconds s.totalSeconds) || s.finished)

/-- Display text and progress hold what `updateDisplay(remainingSeconds)` writes
from the current variables. -/
def DisplayInv (s : State) : Prop :=
  s.countdownText = (updateDisplay s s.remainingSeconds).countdownText ∧
  s.progressPercent = (updateDisplay s s.remainingSeconds).progressPercent ∧
  s.red = (updateDisplay s s.remainingSeconds).red ∧
  s.yellow = (updateDisplay s s.remainingSeconds).yellow

/-- The variable `remainingSeconds` is not negative, and zero once finished. -/
def CountInv (s : State) : Prop :=
  Num.le (.int 0) s.remainingSeconds = true ∧
  (s.finished = true → s.remainingSeconds = .int 0)

/-- Events that call neither `startTimer` nor `resetTimer`. -/
def Event.quiet (e : Event) : Bool :=
  match e with
  | .pause => true
  | .selectAlarm _ => true
  | .appearance _ => true
  | .tick _ => true
  | .cueTimeout _ => true
  | _ => false

/-! ## Sample states with large numbers -/

/-- A page state whose minutes input reads 200000000000000 and whose seconds input
reads 5: sixty times the minutes plus the seconds is above `2^53`. -/
def bigInputs : State :=
  { load pageFive with minutesValue := "200000000000000", secondsValue := "5" }

/-- A page state whose minutes input holds 400 nines. -/
def hugeInputs : State :=
  { load pageFive with minutesValue := String.mk (List.replicate 400 '9')
                       secondsValue := "5" }

/-- A state with `totalSeconds = 1000000000000003` and
`remainingSeconds = 330000000000001`, both below `2^53`. -/
def tierBig : State :=
  { load pageZero with totalSeconds := .int 1000000000000003
                       remainingSeconds := .int 330000000000001 }

/-- A page state whose minutes input reads 9007199254740993, which is `2^53 + 1`. -/
def oddInputs : State :=
  { load pageFive with minutesValue := "9007199254740993", secondsValue := "0" }

/-- A page with one preset button, whose `data-minutes` is 9007199254740993. -/
def pageOddPreset : Page :=
  { pageFive with presetMinutes := ["9007199254740993"] }

/-- A state with `totalSeconds = 18014398509481988`, a whole double above `2^54`,
and `remainingSeconds = 1`. -/
def percentBig : State :=
  { load pageZero with totalSeconds := .int 18014398509481988
                       remainingSeconds := .int 1 }

/-- The state after 300239975158033 is typed into the minutes input and 8 into the
seconds input of the sample page: stopped, with
`remainingSeconds = totalSeconds = 18014398509481988`. -/
def stuckIdle : State :=
  run (load pageFive) [.editMinutes "300239975158033", .editSeconds "8"]

/-- The state 25 seconds give after `startTimer` and seven ticks. -/
def sevenOfTwentyFive : State :=
  run (load pageFive) (.editSeconds "25" :: .start :: List.replicate 7 (.tick 1))

/-! ## Rounding to the nearest double -/

theorem exp2_eq_zpow (e : Int) : exp2 e = (2 : ℚ) ^ e := by
  unfold exp2
  split_ifs with h
  · obtain ⟨n, rfl⟩ := Int.eq_ofNat_of_zero_le h
    simp
  · push_neg at h
    obtain ⟨n, hn⟩ := Int.eq_ofNat_of_zero_le (by omega : 0 ≤ -e)
    have he : e = -(n : Int) := by omega
    subst he
    simp

theorem exp2_pos (e : Int) : 0 < exp2 e := by
  rw [exp2_eq_zpow]; positivity

theorem exp2_add (a b : Int) : exp2 (a + b) = exp2 a * exp2 b := by
  simp only [exp2_eq_zpow]
  exact zpow_add₀ (by norm_num) a b

theorem exp2_le_exp2 {a b : Int} (h : a ≤ b) : exp2 a ≤ exp2 b := by
  simp only [exp2_eq_zpow]
  exact zpow_le_zpow_right₀ (by norm_num) h

theorem exp2_lt_exp2_iff {a b : Int} : exp2 a < exp2 b ↔ a < b := by
  simp only [exp2_eq_zpow]
  exact zpow_lt_zpow_iff_right₀ (by norm_num)

theorem exp2_natCast (n : Nat) : exp2 (n : Int) = ((2 ^ n : Nat) : ℚ) := by
  simp [exp2]

theorem bitPos_spec (fuel : Nat) : ∀ n : Nat, 1 ≤ n → n ≤ fuel →
    2 ^ bitPos fuel n ≤ n ∧ n < 2 ^ (bitPos fuel n + 1) := by
  induction fuel with
  | zero => intro n h1 h2; omega
  | succ f ih =>
    intro n h1 h2
    unfold bitPos
    split_ifs with h
    · obtain ⟨a, b⟩ := ih (n / 2) (by omega) (by omega)
      constructor
      · rw [pow_succ]; omega
      · rw [pow_succ]; omega
    · simp; omega

theorem floorLog2_spec (q : ℚ) (hq : 0 < q) :
    exp2 (floorLog2 q) ≤ q ∧ q < exp2 (floorLog2 q + 1) := by
  have hnum : 0 < q.num := Rat.num_pos.mpr hq
  have ha1 : 1 ≤ q.num.natAbs := by omega
  have hb1 : 1 ≤ q.den := q.den_pos
  obtain ⟨a1, a2⟩ := bitPos_spec q.num.natAbs q.num.natAbs ha1 (le_refl _)
  obtain ⟨b1, b2⟩ := bitPos_spec q.den q.den hb1 (le_refl _)
  have hqe : q = (q.num.natAbs : ℚ) / (q.den : ℚ) := by
    have h := (Rat.num_div_den q).symm
    rw [← Int.cast_natCast, Int.natAbs_of_nonneg hnum.le]
    exact h
  unfold floorLog2
  simp only
  generalize q.num.natAbs = a at *
  generalize q.den = b at *
  generalize bitPos a a = la at *
  generalize bitPos b b = lb at *
  have hbpos : (0 : ℚ) < (b : ℚ) := by exact_mod_cast hb1
  have A1 : ((2 : ℚ) ^ la) ≤ (a : ℚ) := by exact_mod_cast a1
  have A2 : (a : ℚ) < (2 : ℚ) ^ (la + 1) := by exact_mod_cast a2
  have B1 : ((2 : ℚ) ^ lb) ≤ (b : ℚ) := by exact_mod_cast b1
  have B2 : (b : ℚ) < (2 : ℚ) ^ (lb + 1) := by exact_mod_cast b2
  have p2 : ∀ n : Nat, exp2 (n : Int) = (2 : ℚ) ^ n := by
    intro n; rw [exp2_natCast]; push_cast; rfl
  have e1 : exp2 ((la : Int) - (lb : Int) + 1) * (2 : ℚ) ^ lb = (2 : ℚ) ^ (la + 1) := by
    rw [← p2 lb, ← exp2_add, ← p2 (la + 1)]
    congr 1; push_cast; ring
  have e2 : exp2 ((la : Int) - (lb : Int) - 1) * (2 : ℚ) ^ (lb + 1) = (2 : ℚ) ^ la := by
    rw [← p2 (lb + 1), ← exp2_add, ← p2 la]
    congr 1; push_cast; ring
  split_ifs with h
  · refine ⟨h, ?_⟩
    rw [hqe, div_lt_iff₀ hbpos]
    have := exp2_pos ((la : Int) - (lb : Int) + 1)
    calc (a : ℚ) < 2 ^ (la + 1) := A2
      _ = exp2 ((la : Int) - (lb : Int) + 1) * 2 ^ lb := e1.symm
      _ ≤ exp2 ((la : Int) - (lb : Int) + 1) * b := by
          apply mul_le_mul_of_nonneg_left B1 this.le
  · push_neg at h
    constructor
    · rw [hqe, le_div_iff₀ hbpos]
      have := exp2_pos ((la : Int) - (lb : Int) - 1)
      calc exp2 ((la : Int) - (lb : Int) - 1) * b
          ≤ exp2 ((la : Int) - (lb : Int) - 1) * 2 ^ (lb + 1) := by
            apply mul_le_mul_of_nonneg_left B2.le this.le
        _ = 2 ^ la := e2
        _ ≤ a := A1
    · rw [show ((la : Int) - (lb : Int) - 1 + 1) = (la : Int) - (lb : Int) by ring]
      exact h

theorem ratFloor_eq (x : ℚ) : ((Rat.floor x : Int) : ℚ) ≤ x ∧ x < (Rat.floor x : ℚ) + 1 := by
  have h : Rat.floor x = ⌊x⌋ := rfl
  rw [h]
  exact ⟨Int.floor_le x, Int.lt_floor_add_one x⟩

theorem ratFloor_intCast (n : Int) : Rat.floor (n : ℚ) = n := by
  have h : Rat.floor (n : ℚ) = ⌊(n : ℚ)⌋ := rfl
  rw [h, Int.floor_intCast]

/-- The nearest whole number is at most one half away. -/
theorem roundHalfEven_err (x : ℚ) :
    |(roundHalfEven x : ℚ) - x| ≤ 1 / 2 := by
  obtain ⟨h1, h2⟩ := ratFloor_eq x
  unfold roundHalfEven
  simp only
  rw [abs_le]
  split_ifs with a b c
  · constructor <;> linarith
  · push_cast; constructor <;> linarith
  · constructor <;> linarith
  · push_cast; push_neg at a b; constructor <;> linarith

/-- Whole numbers round to themselves. -/
theorem roundHalfEven_intCast (n : Int) : roundHalfEven (n : ℚ) = n := by
  unfold roundHalfEven
  simp only [ratFloor_intCast, sub_self]
  norm_num

/-- Rounding does not cross a whole number from below. -/
theorem roundHalfEven_le (x : ℚ) (n : Int) (h : x ≤ n) : roundHalfEven x ≤ n := by
  obtain ⟨h1, h2⟩ := ratFloor_eq x
  have hf : (Rat.floor x : ℚ) ≤ n := le_trans h1 h
  have hf' : Rat.floor x ≤ n := by exact_mod_cast hf
  unfold roundHalfEven
  simp only
  have up : x - (Rat.floor x : ℚ) ≥ 1 / 2 → Rat.floor x + 1 ≤ n := by
    intro hx
    have : (Rat.floor x : ℚ) < n := by linarith
    have : Rat.floor x < n := by exact_mod_cast this
    omega
  split_ifs with a b c
  · exact hf'
  · exact up (by linarith)
  · exact hf'
  · push_neg at a; exact up a

/-- Rounding does not cross a whole number from above. -/
theorem le_roundHalfEven (x : ℚ) (n : Int) (h : (n : ℚ) ≤ x) : n ≤ roundHalfEven x := by
  obtain ⟨h1, h2⟩ := ratFloor_eq x
  have hf : (n : ℚ) < (Rat.floor x : ℚ) + 1 := lt_of_le_of_lt h h2
  have hf' : n ≤ Rat.floor x := by
    have : n < Rat.floor x + 1 := by exact_mod_cast hf
    omega
  unfold roundHalfEven
  simp only
  split_ifs <;> omega

theorem roundAt_err (e : Int) (x : ℚ) : |roundAt e x - x| ≤ exp2 e / 2 := by
  have hp := exp2_pos e
  have h := roundHalfEven_err (x / exp2 e)
  unfold roundAt
  have e1 : (roundHalfEven (x / exp2 e) : ℚ) * exp2 e - x
      = ((roundHalfEven (x / exp2 e) : ℚ) - x / exp2 e) * exp2 e := by
    field_simp
  rw [e1, abs_mul, abs_of_pos hp]
  calc |(roundHalfEven (x / exp2 e) : ℚ) - x / exp2 e| * exp2 e
      ≤ 1 / 2 * exp2 e := mul_le_mul_of_nonneg_right h hp.le
    _ = exp2 e / 2 := by ring

/-- A multiple of `2^e` rounds to itself. -/
theorem roundAt_exact (e : Int) (n : Int) : roundAt e ((n : ℚ) * exp2 e) = (n : ℚ) * exp2 e := by
  have hp := exp2_pos e
  unfold roundAt
  rw [mul_div_assoc, div_self hp.ne', mul_one, roundHalfEven_intCast]

theorem roundAt_le (e : Int) (x : ℚ) (n : Int) (h : x ≤ (n : ℚ) * exp2 e) :
    roundAt e x ≤ (n : ℚ) * exp2 e := by
  have hp := exp2_pos e
  unfold roundAt
  apply mul_le_mul_of_nonneg_right _ hp.le
  have : roundHalfEven (x / exp2 e) ≤ n :=
    roundHalfEven_le _ _ (by rw [div_le_iff₀ hp]; exact h)
  exact_mod_cast this

theorem le_roundAt (e : Int) (x : ℚ) (n : Int) (h : (n : ℚ) * exp2 e ≤ x) :
    (n : ℚ) * exp2 e ≤ roundAt e x := by
  have hp := exp2_pos e
  unfold roundAt
  apply mul_le_mul_of_nonneg_right _ hp.le
  have : n ≤ roundHalfEven (x / exp2 e) :=
    le_roundHalfEven _ _ (by rw [le_div_iff₀ hp]; exact h)
  exact_mod_cast this

theorem floorLog2_lt (x : ℚ) (hx : 0 < x) (j : Int) (h : x < exp2 j) : floorLog2 x < j :=
  exp2_lt_exp2_iff.mp (lt_of_le_of_lt (floorLog2_spec x hx).1 h)

theorem le_floorLog2 (x : ℚ) (hx : 0 < x) (j : Int) (h : exp2 j ≤ x) : j ≤ floorLog2 x := by
  have := exp2_lt_exp2_iff.mp (lt_of_le_of_lt h (floorLog2_spec x hx).2)
  omega

theorem expo_ge (x : ℚ) : -1074 ≤ expo x := le_max_right _ _

theorem expo_le (x : ℚ) (hx : 0 < x) (j : Int) (h : x < exp2 j) (hj : -1021 ≤ j) :
    expo x ≤ j - 53 := by
  have := floorLog2_lt x hx j h
  unfold expo
  exact max_le (by omega) (by omega)

theorem exp2_neg_mul (e : Int) : exp2 (-e) * exp2 e = 1 := by
  rw [← exp2_add]; simp [exp2]

theorem toDouble_of_pos (x : ℚ) (hx : 0 < x) (hb : roundAt (expo x) x < exp2 1024) :
    toDouble x = .fin (roundAt (expo x) x) := by
  unfold toDouble
  rw [if_neg hx.ne', if_pos hx, if_neg (not_le.mpr hb)]

theorem toDouble_of_neg (x : ℚ) (hx : x < 0) (hb : roundAt (expo (-x)) (-x) < exp2 1024) :
    toDouble x = .fin (-(roundAt (expo (-x)) (-x))) := by
  unfold toDouble
  rw [if_neg hx.ne, if_neg (not_lt.mpr hx.le), if_neg (not_le.mpr hb)]

/-- A whole number rounds to itself at every exponent that is not positive. -/
theorem roundAt_intCast (e : Int) (he : e ≤ 0) (n : Int) : roundAt e (n : ℚ) = n := by
  obtain ⟨k, hk⟩ := Int.eq_ofNat_of_zero_le (by omega : 0 ≤ -e)
  have h1 : exp2 (-e) = ((2 ^ k : Nat) : ℚ) := by rw [hk]; exact exp2_natCast k
  have h2 : (n : ℚ) = ((n * (2 ^ k : Nat) : Int) : ℚ) * exp2 e := by
    push_cast
    rw [mul_assoc]
    have := exp2_neg_mul e
    rw [h1] at this
    push_cast at this
    rw [this, mul_one]
  rw [h2, roundAt_exact, ← h2]

theorem exp2_53 : exp2 53 = 9007199254740992 := by
  rw [show (53 : Int) = ((53 : Nat) : Int) from rfl, exp2_natCast]; norm_num

theorem exp2_53_lt_1024 : exp2 53 < exp2 1024 := exp2_lt_exp2_iff.mpr (by decide)

/-- Whole numbers below `2^53` are doubles. -/
theorem toDouble_intCast (n : Int) (h : |n| < 9007199254740992) :
    toDouble (n : ℚ) = .fin (n : ℚ) := by
  rcases lt_trichotomy n 0 with hn | hn | hn
  · have hx : (n : ℚ) < 0 := by exact_mod_cast hn
    have hlt : -(n : ℚ) < exp2 53 := by
      rw [exp2_53]
      have : -n < 9007199254740992 := by rw [abs_lt] at h; omega
      exact_mod_cast this
    have he := expo_le (-(n : ℚ)) (by linarith) 53 hlt (by decide)
    have hr : roundAt (expo (-(n : ℚ))) (-(n : ℚ)) = -(n : ℚ) := by
      have := roundAt_intCast (expo (-(n : ℚ))) (by omega) (-n)
      push_cast at this
      exact this
    rw [toDouble_of_neg _ hx (by rw [hr]; exact lt_trans hlt exp2_53_lt_1024), hr, neg_neg]
  · subst hn
    simp [toDouble]
  · have hx : (0 : ℚ) < (n : ℚ) := by exact_mod_cast hn
    have hlt : (n : ℚ) < exp2 53 := by
      rw [exp2_53]
      have : n < 9007199254740992 := by rw [abs_lt] at h; omega
      exact_mod_cast this
    have he := expo_le (n : ℚ) hx 53 hlt (by decide)
    have hr := roundAt_intCast (expo (n : ℚ)) (by omega) n
    rw [toDouble_of_pos _ hx (by rw [hr]; exact lt_trans hlt exp2_53_lt_1024), hr]

/-- Arithmetic on whole numbers below `2^53` is exact. -/
theorem roundInt_small (n : Int) (h : |n| < 9007199254740992) : roundInt n = .int n := by
  unfold roundInt
  rw [toDouble_intCast n h]
  simp [Dbl.floor, ratFloor_intCast]

/-- From `2^53` on the nearest double is at least `2^53`. -/
theorem roundAt_big (x : ℚ) (hx : exp2 53 ≤ x) : exp2 53 ≤ roundAt (expo x) x := by
  have hpos : 0 < x := lt_of_lt_of_le (exp2_pos 53) hx
  have hfl := le_floorLog2 x hpos 53 hx
  have he : expo x = floorLog2 x - 52 := by
    unfold expo
    exact max_eq_left (by omega)
  have h1 : ((2 ^ 52 : Nat) : Int) * exp2 (expo x) = exp2 (floorLog2 x) := by
    have : exp2 (floorLog2 x) = exp2 (52 + expo x) := by rw [he]; congr 1; ring
    rw [this, exp2_add, show (52 : Int) = ((52 : Nat) : Int) from rfl, exp2_natCast]
    push_cast; rfl
  have h2 := le_roundAt (expo x) x ((2 ^ 52 : Nat) : Int)
    (by push_cast at h1 ⊢; rw [h1]; exact (floorLog2_spec x hpos).1)
  push_cast at h1 h2
  rw [h1] at h2
  exact le_trans (exp2_le_exp2 hfl) h2

theorem roundInt_big (n : Int) (h : 9007199254740992 ≤ n) :
    roundInt n = .posInf ∨ ∃ v : Int, roundInt n = .int v ∧ 9007199254740992 ≤ v := by
  have hx : exp2 53 ≤ (n : ℚ) := by rw [exp2_53]; exact_mod_cast h
  have hpos : (0 : ℚ) < (n : ℚ) := lt_of_lt_of_le (exp2_pos 53) hx
  have hb := roundAt_big (n : ℚ) hx
  unfold roundInt toDouble
  rw [if_neg hpos.ne', if_pos hpos]
  split_ifs with ho
  · exact Or.inl rfl
  · refine Or.inr ⟨Rat.floor (roundAt (expo (n : ℚ)) (n : ℚ)), rfl, ?_⟩
    rw [exp2_53] at hb
    exact Rat.le_floor.mpr (by exact_mod_cast hb)

theorem roundInt_big_neg (n : Int) (h : n ≤ -9007199254740992) :
    roundInt n = .negInf ∨ ∃ v : Int, roundInt n = .int v ∧ v ≤ -9007199254740992 := by
  have hx : exp2 53 ≤ -(n : ℚ) := by
    rw [exp2_53]
    have : (9007199254740992 : Int) ≤ -n := by omega
    exact_mod_cast this
  have hneg : (n : ℚ) < 0 := by
    have := lt_of_lt_of_le (exp2_pos 53) hx
    linarith
  have hb := roundAt_big (-(n : ℚ)) hx
  unfold roundInt toDouble
  rw [if_neg hneg.ne, if_neg (not_lt.mpr hneg.le)]
  split_ifs with ho
  · exact Or.inl rfl
  · refine Or.inr ⟨Rat.floor (-(roundAt (expo (-(n : ℚ))) (-(n : ℚ)))), rfl, ?_⟩
    rw [exp2_53] at hb
    have h1 : -(roundAt (expo (-(n : ℚ))) (-(n : ℚ))) ≤ ((-9007199254740992 : Int) : ℚ) := by
      push_cast; linarith
    have h2 := ratFloor_eq (-(roundAt (expo (-(n : ℚ))) (-(n : ℚ))))
    have h3 : ((Rat.floor (-(roundAt (expo (-(n : ℚ))) (-(n : ℚ)))) : Int) : ℚ)
        ≤ ((-9007199254740992 : Int) : ℚ) := le_trans h2.1 h1
    exact_mod_cast h3

/-- Comparing a rounded whole number with a small constant is comparing the number
itself. -/
theorem roundInt_lt (n c : Int) (hc : |c| < 9007199254740992) :
    Num.lt (roundInt n) (.int c) = decide (n < c) := by
  rw [abs_lt] at hc
  by_cases h1 : 9007199254740992 ≤ n
  · rcases roundInt_big n h1 with h | ⟨v, h, hv⟩
    · rw [h]; simp [Num.lt]; omega
    · rw [h]; simp [Num.lt]
      constructor <;> intro <;> omega
  · by_cases h2 : n ≤ -9007199254740992
    · rcases roundInt_big_neg n h2 with h | ⟨v, h, hv⟩
      · rw [h]; simp [Num.lt]; omega
      · rw [h]; simp [Num.lt]
        constructor <;> intro <;> omega
    · rw [roundInt_small n (by rw [abs_lt]; omega)]
      simp [Num.lt]

theorem roundInt_gt (n c : Int) (hc : |c| < 9007199254740992) :
    Num.gt (roundInt n) (.int c) = decide (c < n) := by
  rw [abs_lt] at hc
  unfold Num.gt
  by_cases h1 : 9007199254740992 ≤ n
  · rcases roundInt_big n h1 with h | ⟨v, h, hv⟩
    · rw [h]; simp [Num.lt]; omega
    · rw [h]; simp [Num.lt]
      constructor <;> intro <;> omega
  · by_cases h2 : n ≤ -9007199254740992
    · rcases roundInt_big_neg n h2 with h | ⟨v, h, hv⟩
      · rw [h]; simp [Num.lt]; omega
      · rw [h]; simp [Num.lt]
        constructor <;> intro <;> omega
    · rw [roundInt_small n (by rw [abs_lt]; omega)]
      simp [Num.lt]

theorem toDouble_zero : toDouble 0 = .fin 0 := by
  simp [toDouble]

theorem toDouble_one : toDouble 1 = .fin 1 := by
  have := toDouble_intCast 1 (by norm_num)
  simpa using this

theorem toDouble_hundred : toDouble 100 = .fin 100 := by
  have := toDouble_intCast 100 (by norm_num)
  simpa using this

theorem roundInt_isNaN (n : Int) : (roundInt n).isNaN = false := by
  unfold roundInt toDouble
  split_ifs <;> rfl

theorem exp2_neg_five : exp2 (-5) = 1 / 32 := by
  simp [exp2]

theorem exp2_48 : exp2 48 = 281474976710656 := by
  rw [show (48 : Int) = ((48 : Nat) : Int) from rfl, exp2_natCast]; norm_num

/-- A whole number below `x` stays below the rounded `x` when the exponent is not
positive. -/
theorem intCast_le_roundAt (e : Int) (he : e ≤ 0) (x : ℚ) (k : Int) (h : (k : ℚ) ≤ x) :
    (k : ℚ) ≤ roundAt e x := by
  obtain ⟨j, hj⟩ := Int.eq_ofNat_of_zero_le (by omega : 0 ≤ -e)
  have h1 : exp2 (-e) = ((2 ^ j : Nat) : ℚ) := by rw [hj]; exact exp2_natCast j
  have h2 : (k : ℚ) = ((k * (2 ^ j : Nat) : Int) : ℚ) * exp2 e := by
    push_cast
    rw [mul_assoc]
    have := exp2_neg_mul e
    rw [h1] at this
    push_cast at this
    rw [this, mul_one]
  rw [h2]
  exact le_roundAt e x _ (by rw [← h2]; exact h)

theorem roundAt_le_intCast (e : Int) (he : e ≤ 0) (x : ℚ) (k : Int) (h : x ≤ (k : ℚ)) :
    roundAt e x ≤ (k : ℚ) := by
  obtain ⟨j, hj⟩ := Int.eq_ofNat_of_zero_le (by omega : 0 ≤ -e)
  have h1 : exp2 (-e) = ((2 ^ j : Nat) : ℚ) := by rw [hj]; exact exp2_natCast j
  have h2 : (k : ℚ) = ((k * (2 ^ j : Nat) : Int) : ℚ) * exp2 e := by
    push_cast
    rw [mul_assoc]
    have := exp2_neg_mul e
    rw [h1] at this
    push_cast at this
    rw [this, mul_one]
  rw [h2]
  exact roundAt_le e x _ (by rw [← h2]; exact h)

/-- Below `2^53` the quotient by 60, rounded to a double and floored, is the whole
quotient. -/
theorem floor_div_sixty (n : Int) (h0 : 0 ≤ n) (h1 : n < 9007199254740992) :
    Dbl.floor (Num.div (.int n) (.int 60)) = .int (n / 60) := by
  have hdiv : Num.div (.int n) (.int 60) = toDouble ((n : ℚ) / 60) := by
    simp [Num.div]
  rw [hdiv]
  rcases eq_or_lt_of_le h0 with hz | hpos
  · subst hz
    have e0 : Rat.floor (0 : ℚ) = 0 := by decide
    simp [toDouble_zero, Dbl.floor, e0]
  · have hk := Int.emod_add_ediv n 60
    have hr0 := Int.emod_nonneg n (by decide : (60 : Int) ≠ 0)
    have hr1 := Int.emod_lt_of_pos n (by decide : (0 : Int) < 60)
    have hx : (0 : ℚ) < (n : ℚ) / 60 := by
      have : (0 : ℚ) < (n : ℚ) := by exact_mod_cast hpos
      positivity
    have hnq : (n : ℚ) = 60 * ((n / 60 : Int) : ℚ) + ((n % 60 : Int) : ℚ) := by
      have : n = 60 * (n / 60) + n % 60 := by omega
      exact_mod_cast this
    have hlow : ((n / 60 : Int) : ℚ) ≤ (n : ℚ) / 60 := by
      rw [le_div_iff₀ (by norm_num)]
      have : (0 : ℚ) ≤ ((n % 60 : Int) : ℚ) := by exact_mod_cast hr0
      linarith
    have hup : (n : ℚ) / 60 ≤ ((n / 60 : Int) : ℚ) + 59 / 60 := by
      rw [div_le_iff₀ (by norm_num)]
      have : ((n % 60 : Int) : ℚ) ≤ 59 := by
        have : n % 60 ≤ 59 := by omega
        exact_mod_cast this
      linarith
    have hlt : (n : ℚ) / 60 < exp2 48 := by
      rw [exp2_48, div_lt_iff₀ (by norm_num)]
      have : (n : ℚ) < 9007199254740992 := by exact_mod_cast h1
      linarith
    have he := expo_le _ hx 48 hlt (by decide)
    have herr := roundAt_err (expo ((n : ℚ) / 60)) ((n : ℚ) / 60)
    have hexp : exp2 (expo ((n : ℚ) / 60)) ≤ 1 / 32 := by
      rw [← exp2_neg_five]; exact exp2_le_exp2 (by omega)
    rw [abs_le] at herr
    have hge := intCast_le_roundAt (expo ((n : ℚ) / 60)) (by omega) _ (n / 60) hlow
    have hlt1 : roundAt (expo ((n : ℚ) / 60)) ((n : ℚ) / 60) < ((n / 60 : Int) : ℚ) + 1 := by
      linarith
    have hbig : roundAt (expo ((n : ℚ) / 60)) ((n : ℚ) / 60) < exp2 1024 := by
      have : ((n / 60 : Int) : ℚ) + 1 ≤ exp2 53 := by
        rw [exp2_53]
        have : n / 60 + 1 ≤ 9007199254740992 := by omega
        exact_mod_cast this
      exact lt_of_lt_of_le hlt1 (le_trans this exp2_53_lt_1024.le)
    rw [toDouble_of_pos _ hx hbig]
    simp only [Dbl.floor]
    congr 1
    have hfl : Rat.floor (roundAt (expo ((n : ℚ) / 60)) ((n : ℚ) / 60))
        = ⌊roundAt (expo ((n : ℚ) / 60)) ((n : ℚ) / 60)⌋ := rfl
    rw [hfl, Int.floor_eq_iff]
    exact ⟨hge, hlt1⟩

theorem mod_sixty (n : Int) : Num.mod (.int n) (.int 60) = .int (Int.tmod n 60) := by
  simp [Num.mod]

/-- Below `2^53` a whole number that is not negative prints as its decimal
numeral. -/
theorem toJSString_int (v : Int) (h0 : 0 ≤ v) (h1 : v < 9007199254740992) :
    (Num.int v).toJSString = toString v := by
  obtain ⟨n, rfl⟩ := Int.eq_ofNat_of_zero_le h0
  have hn : n < 9007199254740992 := by exact_mod_cast h1
  simp only [Num.toJSString, natToJSString, Int.natAbs_ofNat, if_pos hn]
  rw [if_neg (by omega)]
  rfl

theorem exp2_zero : exp2 0 = 1 := by simp [exp2]

theorem exp2_neg_53 : exp2 (-53) = 1 / 9007199254740992 := by
  simp [exp2]

/-- Rounding a rational strictly between 0 and 1: the result is a double in
`[0, 1]` at most `2^-54` away. -/
theorem toDouble_unit (x : ℚ) (h0 : 0 < x) (h1 : x < 1) :
    toDouble x = .fin (roundAt (expo x) x) ∧
    |roundAt (expo x) x - x| ≤ 1 / 18014398509481984 ∧
    0 ≤ roundAt (expo x) x ∧ roundAt (expo x) x ≤ 1 := by
  have he := expo_le x h0 0 (by rw [exp2_zero]; exact h1) (by decide)
  have h3 : roundAt (expo x) x ≤ ((1 : Int) : ℚ) :=
    roundAt_le_intCast (expo x) (by omega) x 1 (by push_cast; exact h1.le)
  have h4 : ((0 : Int) : ℚ) ≤ roundAt (expo x) x :=
    intCast_le_roundAt (expo x) (by omega) x 0 (by push_cast; exact h0.le)
  push_cast at h3 h4
  have herr := roundAt_err (expo x) x
  have hexp : exp2 (expo x) ≤ 1 / 9007199254740992 := by
    rw [← exp2_neg_53]; exact exp2_le_exp2 (by omega)
  refine ⟨toDouble_of_pos x h0 ?_, ?_, h4, h3⟩
  · have : (1 : ℚ) < exp2 1024 := by
      rw [← exp2_zero]; exact exp2_lt_exp2_iff.mpr (by decide)
    linarith
  · linarith

theorem toDouble_33 :
    toDouble (33 / 100) = .fin (5944751508129055 / 18014398509481984) := by decide!

theorem toDouble_66 :
    toDouble (66 / 100) = .fin (5944751508129055 / 9007199254740992) := by decide!

/-- Comparing the rounded ratio of two whole numbers with a rounded constant
`p / 100` is comparing the exact ratio with `p / 100`, as long as
`100 * t ≤ 2^53`. -/
theorem ratio_le_const (r t p : Int) (c : ℚ) (hc : toDouble ((p : ℚ) / 100) = .fin c)
    (hc1 : (p : ℚ) / 100 - 1 / 18014398509481984 ≤ c)
    (hc2 : c < (p : ℚ) / 100 + 1 / 18014398509481984) (hp : c < 1)
    (hc0 : 0 ≤ c) (hp0 : 0 ≤ p) (hp100 : p < 100)
    (h0 : 0 ≤ r) (hrt : r ≤ t) (ht : 0 < t) (hb : 100 * t ≤ 9007199254740992) :
    Dbl.le (Num.div (.int r) (.int t)) (.fin c) = decide (100 * r ≤ p * t) := by
  have htq : (0 : ℚ) < (t : ℚ) := by exact_mod_cast ht
  have hdiv : Num.div (.int r) (.int t) = toDouble ((r : ℚ) / (t : ℚ)) := by
    simp [Num.div, ne_of_gt ht]
  rw [hdiv]
  have hbq : (100 : ℚ) * (t : ℚ) ≤ 9007199254740992 := by exact_mod_cast hb
  have hstep : (1 : ℚ) / 9007199254740992 ≤ 1 / (100 * (t : ℚ)) := by
    apply one_div_le_one_div_of_le (by positivity) hbq
  rcases eq_or_lt_of_le h0 with hz | hrpos
  · subst hz
    simp [toDouble_zero, Dbl.le, hc0]
    positivity
  · rcases eq_or_lt_of_le hrt with heq | hlt
    · subst heq
      rw [div_self htq.ne', toDouble_one]
      simp only [Dbl.le]
      have h1 : ¬ (1 : ℚ) ≤ c := not_le.mpr hp
      have h2 : ¬ (100 * r ≤ p * r) := by
        nlinarith
      simp [h1, h2]
    · have hx0 : (0 : ℚ) < (r : ℚ) / (t : ℚ) := by
        have : (0 : ℚ) < (r : ℚ) := by exact_mod_cast hrpos
        positivity
      have hx1 : (r : ℚ) / (t : ℚ) < 1 := by
        rw [div_lt_one htq]; exact_mod_cast hlt
      obtain ⟨e, herr, _, _⟩ := toDouble_unit _ hx0 hx1
      rw [e]
      simp only [Dbl.le]
      rw [abs_le] at herr
      congr 1
      apply propext
      constructor
      · intro hy
        by_contra hgt
        push_neg at hgt
        have h1 : p * t + 1 ≤ 100 * r := by omega
        have h1q : (p : ℚ) * (t : ℚ) + 1 ≤ 100 * (r : ℚ) := by exact_mod_cast h1
        have h2 : (p : ℚ) / 100 + 1 / (100 * (t : ℚ)) ≤ (r : ℚ) / (t : ℚ) := by
          rw [div_add_div _ _ (by norm_num) (by positivity), div_le_div_iff₀ (by positivity) htq]
          nlinarith
        linarith
      · intro hle
        have hleq : 100 * (r : ℚ) ≤ (p : ℚ) * (t : ℚ) := by exact_mod_cast hle
        rcases eq_or_lt_of_le hle with heq | hlt2
        · have hx : (r : ℚ) / (t : ℚ) = (p : ℚ) / 100 := by
            rw [div_eq_div_iff htq.ne' (by norm_num)]
            have : (100 : ℚ) * (r : ℚ) = (p : ℚ) * (t : ℚ) := by exact_mod_cast heq
            linarith
          have e' := e
          rw [hx, hc] at e'
          have : c = roundAt (expo ((r : ℚ) / (t : ℚ))) ((r : ℚ) / (t : ℚ)) := by
            rw [hx]; exact Dbl.fin.inj e'
          rw [← this]
        · have h1 : 100 * r + 1 ≤ p * t := by omega
          have h1q : 100 * (r : ℚ) + 1 ≤ (p : ℚ) * (t : ℚ) := by exact_mod_cast h1
          have h2 : (r : ℚ) / (t : ℚ) ≤ (p : ℚ) / 100 - 1 / (100 * (t : ℚ)) := by
            rw [div_sub_div _ _ (by norm_num) (by positivity),
              div_le_div_iff₀ htq (by positivity)]
            nlinarith
          linarith

theorem exp2_seven : exp2 7 = 128 := by
  rw [show (7 : Int) = ((7 : Nat) : Int) from rfl, exp2_natCast]; norm_num

theorem exp2_neg_46 : exp2 (-46) = 1 / 70368744177664 := by
  simp [exp2]

/-- Rounding at exponent `e` does not cross a multiple of `2^f` for `f ≥ e`. -/
theorem roundAt_le_aligned (e f : Int) (hef : e ≤ f) (x : ℚ) (k : Int)
    (h : x ≤ (k : ℚ) * exp2 f) : roundAt e x ≤ (k : ℚ) * exp2 f := by
  obtain ⟨j, hj⟩ := Int.eq_ofNat_of_zero_le (by omega : 0 ≤ f - e)
  have h1 : exp2 f = ((2 ^ j : Nat) : ℚ) * exp2 e := by
    have : f = (j : Int) + e := by omega
    rw [this, exp2_add, exp2_natCast]
  have h2 : (k : ℚ) * exp2 f = ((k * (2 ^ j : Nat) : Int) : ℚ) * exp2 e := by
    rw [h1]; push_cast; ring
  rw [h2]
  exact roundAt_le e x _ (by rw [← h2]; exact h)

/-- The percentage the script computes from whole `totalSeconds = t` and
`remainingSeconds = r` with `0 ≤ r ≤ t`, `0 < t < 2^53`: a double in `[0, 100]`
within `2^-46` of the exact value, and 100 only for `r = 0`. -/
theorem percent_value (t r : Int) (ht0 : 0 < t) (htb : t < 9007199254740992)
    (h0 : 0 ≤ r) (hrt : r ≤ t) :
    ∃ z : ℚ, Dbl.mul (toDouble (((t - r : Int) : ℚ) / (t : ℚ))) (toDouble 100) = .fin z ∧
      |z - ((t - r : Int) : ℚ) / (t : ℚ) * 100| ≤ 1 / 70368744177664 ∧
      0 ≤ z ∧ z ≤ 100 ∧ (z = 100 ↔ r = 0) := by
  have htq : (0 : ℚ) < (t : ℚ) := by exact_mod_cast ht0
  have hrq0 : (0 : ℚ) ≤ (r : ℚ) := by exact_mod_cast h0
  have hrtq : (r : ℚ) ≤ (t : ℚ) := by exact_mod_cast hrt
  rw [toDouble_hundred]
  rcases eq_or_lt_of_le h0 with hr0 | hrpos
  · -- `r = 0`: the quotient is 1 and the product 100, both exact
    subst hr0
    have hx : (((t - 0 : Int) : ℚ)) / (t : ℚ) = 1 := by
      rw [sub_zero]; exact div_self htq.ne'
    rw [hx, toDouble_one]
    refine ⟨100, ?_, ?_, by norm_num, le_refl _, by simp⟩
    · simp only [Dbl.mul]
      rw [show (1 : ℚ) * 100 = 100 by norm_num, toDouble_hundred]
    · norm_num
  rcases eq_or_lt_of_le hrt with hrt' | hrlt
  · -- `r = t`: the quotient is 0
    subst hrt'
    have hx : (((r - r : Int) : ℚ)) / (r : ℚ) = 0 := by simp
    rw [hx, toDouble_zero]
    refine ⟨0, ?_, ?_, le_refl _, by norm_num, ?_⟩
    · simp only [Dbl.mul]
      rw [show (0 : ℚ) * 100 = 0 by norm_num, toDouble_zero]
    · norm_num
    · constructor
      · intro h; norm_num at h
      · intro h; omega
  -- the quotient is strictly between 0 and 1
  have hrq : (0 : ℚ) < (r : ℚ) := by exact_mod_cast hrpos
  have hrltq : (r : ℚ) < (t : ℚ) := by exact_mod_cast hrlt
  have hx0 : (0 : ℚ) < ((t - r : Int) : ℚ) / (t : ℚ) := by
    apply div_pos _ htq
    push_cast; linarith
  have hx1 : ((t - r : Int) : ℚ) / (t : ℚ) < 1 := by
    rw [div_lt_one htq]; push_cast; linarith
  have hxe : ((t - r : Int) : ℚ) / (t : ℚ) = 1 - (r : ℚ) / (t : ℚ) := by
    push_cast; field_simp
  obtain ⟨hy, hyerr, hy0, hy1⟩ := toDouble_unit _ hx0 hx1
  have hexpo := expo_le _ hx0 0 (by rw [exp2_zero]; exact hx1) (by decide)
  -- the rounded quotient stays at or below the last double before 1
  have hone : (1 : ℚ) ≤ (r : ℚ) := by exact_mod_cast hrpos
  have htb' : (t : ℚ) ≤ 9007199254740992 := by exact_mod_cast htb.le
  have hdiv : (1 : ℚ) / 9007199254740992 ≤ (r : ℚ) / (t : ℚ) := by
    rw [div_le_div_iff₀ (by norm_num) htq]
    linarith
  have hy2 : roundAt (expo (((t - r : Int) : ℚ) / (t : ℚ))) (((t - r : Int) : ℚ) / (t : ℚ))
      ≤ 9007199254740991 / 9007199254740992 :=
    calc roundAt (expo (((t - r : Int) : ℚ) / (t : ℚ))) (((t - r : Int) : ℚ) / (t : ℚ))
        ≤ ((9007199254740991 : Int) : ℚ) * exp2 (-53) :=
          roundAt_le_aligned _ (-53) (by omega) _ _ (by
            rw [exp2_neg_53, hxe]; push_cast; linarith)
      _ = 9007199254740991 / 9007199254740992 := by rw [exp2_neg_53]; norm_num
  rw [hy]
  generalize roundAt (expo (((t - r : Int) : ℚ) / (t : ℚ))) (((t - r : Int) : ℚ) / (t : ℚ)) = y
    at hyerr hy0 hy1 hy2
  generalize ((t - r : Int) : ℚ) / (t : ℚ) = x at hyerr hx0 hx1
  rw [abs_le] at hyerr
  simp only [Dbl.mul]
  rcases eq_or_lt_of_le hy0 with hyz | hypos
  · subst hyz
    rw [show (0 : ℚ) * 100 = 0 by norm_num, toDouble_zero]
    refine ⟨0, rfl, ?_, le_refl _, by norm_num, ?_⟩
    · rw [abs_le]; constructor <;> linarith
    · constructor
      · intro h; norm_num at h
      · intro h; omega
  have hw0 : (0 : ℚ) < y * 100 := by positivity
  have hw1 : y * 100 < exp2 7 := by rw [exp2_seven]; linarith
  have he := expo_le (y * 100) hw0 7 hw1 (by decide)
  have herr := roundAt_err (expo (y * 100)) (y * 100)
  have hexp : exp2 (expo (y * 100)) ≤ 1 / 70368744177664 := by
    rw [← exp2_neg_46]; exact exp2_le_exp2 (by omega)
  have hz1 : roundAt (expo (y * 100)) (y * 100) ≤ ((100 : Int) : ℚ) :=
    roundAt_le_intCast _ (by omega) _ 100 (by push_cast; linarith)
  have hz0 : ((0 : Int) : ℚ) ≤ roundAt (expo (y * 100)) (y * 100) :=
    intCast_le_roundAt _ (by omega) _ 0 (by push_cast; linarith)
  push_cast at hz1 hz0
  have hfin : toDouble (y * 100) = .fin (roundAt (expo (y * 100)) (y * 100)) :=
    toDouble_of_pos _ hw0 (by
      have h7 : exp2 7 < exp2 1024 := exp2_lt_exp2_iff.mpr (by decide)
      rw [exp2_seven] at h7
      linarith)
  rw [abs_le] at herr
  refine ⟨_, hfin, ?_, hz0, hz1, ?_⟩
  · rw [abs_le]; constructor <;> linarith
  · constructor
    · intro h
      exfalso
      linarith
    · intro h; omega

/-! ## What `updateProgressBar` leaves alone -/

/-- The function `updateProgressBar` as one record update. -/
theorem updateProgressBar_eq (s : State) :
    updateProgressBar s =
      { s with
        progressPercent :=
          if Num.gt s.totalSeconds (.int 0) then
            Dbl.mul (Num.div (Num.sub s.totalSeconds s.remainingSeconds) s.totalSeconds)
              (toDouble 100)
          else .fin 0
        ariaValueMax := 100
        ariaValueMin := 0
        yellow := Num.gt s.totalSeconds (.int 0) &&
          !Dbl.le (Num.div s.remainingSeconds s.totalSeconds) (toDouble (33 / 100)) &&
          Dbl.le (Num.div s.remainingSeconds s.totalSeconds) (toDouble (66 / 100))
        red := Num.gt s.totalSeconds (.int 0) &&
          Dbl.le (Num.div s.remainingSeconds s.totalSeconds) (toDouble (33 / 100)) } := by
  unfold updateProgressBar
  dsimp only
  split_ifs <;> simp_all

@[simp] theorem updateProgressBar_timer (s : State) :
    (updateProgressBar s).timer = s.timer := by
  rw [updateProgressBar_eq]

@[simp] theorem updateProgressBar_totalSeconds (s : State) :
    (updateProgressBar s).totalSeconds = s.totalSeconds := by
  rw [updateProgressBar_eq]

@[simp] theorem updateProgressBar_remainingSeconds (s : State) :
    (updateProgressBar s).remainingSeconds = s.remainingSeconds := by
  rw [updateProgressBar_eq]

@[simp] theorem updateProgressBar_isRunning (s : State) :
    (updateProgressBar s).isRunning = s.isRunning := by
  rw [updateProgressBar_eq]

@[simp] theorem updateProgressBar_finished (s : State) :
    (updateProgressBar s).finished = s.finished := by
  rw [updateProgressBar_eq]

@[simp] theorem updateProgressBar_liveIntervals (s : State) :
    (updateProgressBar s).liveIntervals = s.liveIntervals := by
  rw [updateProgressBar_eq]

@[simp] theorem updateProgressBar_liveTimeouts (s : State) :
    (updateProgressBar s).liveTimeouts = s.liveTimeouts := by
  rw [updateProgressBar_eq]

@[simp] theorem updateProgressBar_nextHandle (s : State) :
    (updateProgressBar s).nextHandle = s.nextHandle := by
  rw [updateProgressBar_eq]

@[simp] theorem updateProgressBar_minutesValue (s : State) :
    (updateProgressBar s).minutesValue = s.minutesValue := by
  rw [updateProgressBar_eq]

@[simp] theorem updateProgressBar_minutesDisabled (s : State) :
    (updateProgressBar s).minutesDisabled = s.minutesDisabled := by
  rw [updateProgressBar_eq]

@[simp] theorem updateProgressBar_secondsValue (s : State) :
    (updateProgressBar s).secondsValue = s.secondsValue := by
  rw [updateProgressBar_eq]

@[simp] theorem updateProgressBar_secondsDisabled (s : State) :
    (updateProgressBar s).secondsDisabled = s.secondsDisabled := by
  rw [updateProgressBar_eq]

@[simp] theorem updateProgressBar_countdownText (s : State) :
    (updateProgressBar s).countdownText = s.countdownText := by
  rw [updateProgressBar_eq]

@[simp] theorem updateProgressBar_startDisabled (s : State) :
    (updateProgressBar s).startDisabled = s.startDisabled := by
  rw [updateProgressBar_eq]

@[simp] theorem updateProgressBar_pauseDisabled (s : State) :
    (updateProgressBar s).pauseDisabled = s.pauseDisabled := by
  rw [updateProgressBar_eq]

@[simp] theorem updateProgressBar_resetDisabled (s : State) :
    (updateProgressBar s).resetDisabled = s.resetDisabled := by
  rw [updateProgressBar_eq]

@[simp] theorem updateProgressBar_presetBtns (s : State) :
    (updateProgressBar s).presetBtns = s.presetBtns := by
  rw [updateProgressBar_eq]

@[simp] theorem updateProgressBar_alarmSelectValue (s : State) :
    (updateProgressBar s).alarmSelectValue = s.alarmSelectValue := by
  rw [updateProgressBar_eq]

@[simp] theorem updateProgressBar_alarmSelectDisabled (s : State) :
    (updateProgressBar s).alarmSelectDisabled = s.alarmSelectDisabled := by
  rw [updateProgressBar_eq]

@[simp] theorem updateProgressBar_alarmSrc (s : State) :
    (updateProgressBar s).alarmSrc = s.alarmSrc := by
  rw [updateProgressBar_eq]

@[simp] theorem updateProgressBar_playCount (s : State) :
    (updateProgressBar s).playCount = s.playCount := by
  rw [updateProgressBar_eq]

@[simp] theorem updateProgressBar_timerFinishedClass (s : State) :
    (updateProgressBar s).timerFinishedClass = s.timerFinishedClass := by
  rw [updateProgressBar_eq]

@[simp] theorem updateProgressBar_startFocusCalls (s : State) :
    (updateProgressBar s).startFocusCalls = s.startFocusCalls := by
  rw [updateProgressBar_eq]

@[simp] theorem updateProgressBar_darkChecked (s : State) :
    (updateProgressBar s).darkChecked = s.darkChecked := by
  rw [updateProgressBar_eq]

@[simp] theorem updateProgressBar_darkModeClass (s : State) :
    (updateProgressBar s).darkModeClass = s.darkModeClass := by
  rw [updateProgressBar_eq]

@[simp] theorem updateProgressBar_progressPercent (s : State) :
    (updateProgressBar s).progressPercent =
      if Num.gt s.totalSeconds (.int 0) then
        Dbl.mul (Num.div (Num.sub s.totalSeconds s.remainingSeconds) s.totalSeconds)
          (toDouble 100)
      else .fin 0 := by
  rw [updateProgressBar_eq]

theorem updateProgressBar_red (s : State) :
    (updateProgressBar s).red =
      (Num.gt s.totalSeconds (.int 0) &&
        Dbl.le (Num.div s.remainingSeconds s.totalSeconds) (toDouble (33 / 100))) := by
  rw [updateProgressBar_eq]

theorem updateProgressBar_yellow (s : State) :
    (updateProgressBar s).yellow =
      (Num.gt s.totalSeconds (.int 0) &&
        !Dbl.le (Num.div s.remainingSeconds s.totalSeconds) (toDouble (33 / 100)) &&
        Dbl.le (Num.div s.remainingSeconds s.totalSeconds) (toDouble (66 / 100))) := by
  rw [updateProgressBar_eq]

/-! ## Decimal strings read back -/

theorem digitChar_isDigit (k : Nat) (hk : k < 10) :
    (Nat.digitChar k).isDigit = true ∧ (Nat.digitChar k).toNat - 48 = k := by
  interval_cases k <;> decide

theorem digitsValue_append_single (xs : List Char) (c : Char) :
    digitsValue (xs ++ [c]) = 10 * digitsValue xs + (c.toNat - 48) := by
  simp [digitsValue, List.foldl_append]

theorem toDigitsCore_append (fuel : Nat) : ∀ (n : Nat) (ds : List Char),
    Nat.toDigitsCore 10 fuel n ds = Nat.toDigitsCore 10 fuel n [] ++ ds := by
  induction fuel with
  | zero => intro n ds; simp [Nat.toDigitsCore]
  | succ f ih =>
    intro n ds
    simp only [Nat.toDigitsCore]
    split_ifs with h
    · simp
    · rw [ih (n / 10) (Nat.digitChar (n % 10) :: ds), ih (n / 10) [Nat.digitChar (n % 10)]]
      simp

/-- With enough fuel the decimal digits of `n` are a non-empty run of digit
characters whose value is `n`. -/
theorem toDigitsCore_spec (fuel : Nat) : ∀ n : Nat, n < fuel →
    digitsValue (Nat.toDigitsCore 10 fuel n []) = n ∧
    (∀ c ∈ Nat.toDigitsCore 10 fuel n [], c.isDigit = true) ∧
    Nat.toDigitsCore 10 fuel n [] ≠ [] := by
  induction fuel with
  | zero => intro n h; omega
  | succ f ih =>
    intro n hn
    have hd := digitChar_isDigit (n % 10) (Nat.mod_lt _ (by decide))
    simp only [Nat.toDigitsCore]
    split_ifs with h
    · refine ⟨?_, ?_, by simp⟩
      · have e : n % 10 = n := by omega
        simp only [digitsValue, List.foldl, hd.2]
        omega
      · intro c hc
        simp only [List.mem_singleton] at hc
        rw [hc]; exact hd.1
    · have hlt : n / 10 < f := by omega
      obtain ⟨h1, h2, h3⟩ := ih (n / 10) hlt
      rw [toDigitsCore_append]
      refine ⟨?_, ?_, by simp [h3]⟩
      · rw [digitsValue_append_single, h1, hd.2]; omega
      · intro c hc
        rcases List.mem_append.mp hc with hc | hc
        · exact h2 c hc
        · simp only [List.mem_singleton] at hc
          rw [hc]; exact hd.1

theorem isDigit_not_space (c : Char) (h : c.isDigit = true) :
    isStrWhiteSpaceChar c = false := by
  have h1 : 48 ≤ c.toNat ∧ c.toNat ≤ 57 := by
    simp only [Char.isDigit, Bool.and_eq_true, decide_eq_true_eq] at h
    exact ⟨h.1, h.2⟩
  simp [isStrWhiteSpaceChar]
  omega

/-- Reading back the decimal numeral of a whole number `n ≥ 0`. -/
theorem parseWhole_toString (n : Nat) :
    parseWhole (toString ((n : Nat) : Int)) = some (n : Int) := by
  obtain ⟨h1, h2, h3⟩ := toDigitsCore_spec (n + 1) n (Nat.lt_succ_self n)
  have hs : (toString ((n : Nat) : Int)).data = Nat.toDigitsCore 10 (n + 1) n [] := rfl
  unfold parseWhole
  rw [hs]
  generalize Nat.toDigitsCore 10 (n + 1) n [] = l at h1 h2 h3
  cases l with
  | nil => exact absurd rfl h3
  | cons c cs =>
    have hc : c.isDigit = true := h2 c (List.mem_cons_self _ _)
    have hsp := isDigit_not_space c hc
    have hm : c ≠ '-' := by rintro rfl; exact absurd hc (by decide)
    have hp : c ≠ '+' := by rintro rfl; exact absurd hc (by decide)
    have ht : List.takeWhile Char.isDigit (c :: cs) = c :: cs :=
      List.takeWhile_eq_self_iff.mpr (fun x hx => h2 x hx)
    have hu : (match c :: cs with
      | '-' :: r => r
      | '+' :: r => r
      | _ => c :: cs) = c :: cs := by
      split
      · rename_i heq; exact absurd (List.cons.inj heq).1 hm
      · rename_i heq; exact absurd (List.cons.inj heq).1 hp
      · rfl
    simp only [List.dropWhile, hsp, hu, ht]
    simp [hm, h1]

theorem parseWhole_toString_of_nonneg (x : Int) (hx : 0 ≤ x) :
    parseWhole (toString x) = some x := by
  have h := parseWhole_toString x.toNat
  rwa [Int.toNat_of_nonneg hx] at h

/-! ## Validation in `getInputTime` -/

theorem claimedMinutes_nonneg (x : Option Int) : 0 ≤ claimedMinutes x := by
  unfold claimedMinutes
  cases x with
  | none => exact le_refl 0
  | some n =>
    dsimp only
    split_ifs with h
    · exact le_refl 0
    · exact not_lt.mp h

theorem claimedSeconds_range (x : Option Int) :
    0 ≤ claimedSeconds x ∧ claimedSeconds x ≤ 59 := by
  unfold claimedSeconds
  cases x with
  | none => decide
  | some n =>
    dsimp only
    split_ifs <;> omega

/-- The minutes `getInputTime` keeps are the double nearest to the minutes the input
reads as. -/
theorem nonNegative_parseInt (str : String) :
    nonNegative (parseInt str) = roundInt (claimedMinutes (parseWhole str)) := by
  unfold parseInt claimedMinutes
  cases parseWhole str with
  | none =>
    have : roundInt 0 = .int 0 := roundInt_small 0 (by norm_num)
    simp [nonNegative, Num.isNaN, this]
  | some n =>
    have h0 : roundInt 0 = .int 0 := roundInt_small 0 (by norm_num)
    have h1 := roundInt_isNaN n
    have h2 := roundInt_lt n 0 (by norm_num)
    simp only [nonNegative, h1, h2, Bool.false_or, decide_eq_true_eq]
    split_ifs
    · exact h0.symm
    · rfl

/-- The seconds `getInputTime` keeps are exactly the seconds the input reads as,
clamped. -/
theorem capSeconds_parseInt (str : String) :
    capSeconds (nonNegative (parseInt str)) = .int (claimedSeconds (parseWhole str)) := by
  rw [nonNegative_parseInt]
  have hm := claimedMinutes_nonneg (parseWhole str)
  have hg := roundInt_gt (claimedMinutes (parseWhole str)) 59 (by norm_num)
  have hcs : claimedSeconds (parseWhole str)
      = if 59 < claimedMinutes (parseWhole str) then 59
        else claimedMinutes (parseWhole str) := by
    unfold claimedSeconds claimedMinutes
    cases parseWhole str with
    | none => rfl
    | some n => dsimp only; split_ifs <;> first | rfl | omega
  simp only [capSeconds, hg, decide_eq_true_eq, hcs]
  split_ifs with h
  · rfl
  · exact roundInt_small _ (by rw [abs_lt]; omega)

/-- What `getInputTime` returns and writes, whatever the inputs hold: the minutes are
the double nearest to the minutes the input reads as, the seconds are exact. -/
theorem getInputTime_double (s : State) :
    (getInputTime s).2 =
      Num.add (Num.mul (roundInt (claimedMinutes (parseWhole s.minutesValue))) (.int 60))
        (.int (claimedSeconds (parseWhole s.secondsValue))) ∧
    (getInputTime s).1 =
      { s with minutesValue :=
                 (roundInt (claimedMinutes (parseWhole s.minutesValue))).toJSString
               secondsValue := toString (claimedSeconds (parseWhole s.secondsValue)) } := by
  have hs := claimedSeconds_range (parseWhole s.secondsValue)
  have t2 := toJSString_int (claimedSeconds (parseWhole s.secondsValue)) hs.1 (by omega)
  simp only [getInputTime, capSeconds_parseInt]
  simp only [nonNegative_parseInt, t2, and_self]

/-- Within the exact range the value `getInputTime` returns is the exact sum. -/
theorem getInputTime_value (s : State)
    (hm : claimedMinutes (parseWhole s.minutesValue) * 60
      + claimedSeconds (parseWhole s.secondsValue) < 9007199254740992) :
    (getInputTime s).2 =
      .int (claimedMinutes (parseWhole s.minutesValue) * 60
        + claimedSeconds (parseWhole s.secondsValue)) ∧
    (getInputTime s).1 =
      { s with minutesValue := toString (claimedMinutes (parseWhole s.minutesValue))
               secondsValue := toString (claimedSeconds (parseWhole s.secondsValue)) } := by
  have h0 := claimedMinutes_nonneg (parseWhole s.minutesValue)
  have hs := claimedSeconds_range (parseWhole s.secondsValue)
  have e1 : roundInt (claimedMinutes (parseWhole s.minutesValue))
      = .int (claimedMinutes (parseWhole s.minutesValue)) :=
    roundInt_small _ (by rw [abs_lt]; omega)
  have e2 : roundInt (claimedMinutes (parseWhole s.minutesValue) * 60)
      = .int (claimedMinutes (parseWhole s.minutesValue) * 60) :=
    roundInt_small _ (by rw [abs_lt]; omega)
  have e3 : roundInt (claimedMinutes (parseWhole s.minutesValue) * 60
        + claimedSeconds (parseWhole s.secondsValue))
      = .int (claimedMinutes (parseWhole s.minutesValue) * 60
        + claimedSeconds (parseWhole s.secondsValue)) :=
    roundInt_small _ (by rw [abs_lt]; omega)
  have t1 := toJSString_int (claimedMinutes (parseWhole s.minutesValue)) h0 (by omega)
  have t2 := toJSString_int (claimedSeconds (parseWhole s.secondsValue)) hs.1 (by omega)
  simp only [getInputTime, capSeconds_parseInt]
  simp only [nonNegative_parseInt, e1, Num.mul, e2, Num.add, e3, t1, t2, and_self]

/-! ## Reset -/

theorem resetTimer_eq (s : State) :
    resetTimer s =
      { updateButtonStates
          (updateDisplay
            { (getInputTime { clearInterval s with isRunning := false, finished := false }).1
              with remainingSeconds :=
                    (getInputTime
                      { clearInterval s with isRunning := false, finished := false }).2
                   totalSeconds :=
                    (getInputTime
                      { clearInterval s with isRunning := false, finished := false }).2 }
            (getInputTime { clearInterval s with isRunning := false, finished := false }).2)
        with timerFinishedClass := false } := rfl

@[simp] theorem resetTimer_isRunning (s : State) : (resetTimer s).isRunning = false := by
  simp [resetTimer, updateButtonStates, updateDisplay, getInputTime]

@[simp] theorem resetTimer_finished (s : State) : (resetTimer s).finished = false := by
  simp [resetTimer, updateButtonStates, updateDisplay, getInputTime]

@[simp] theorem resetTimer_liveIntervals (s : State) :
    (resetTimer s).liveIntervals = clearHandle s.timer s.liveIntervals := by
  simp [resetTimer, updateButtonStates, updateDisplay, getInputTime, clearInterval]

theorem resetTimer_remaining_eq_total (s : State) :
    (resetTimer s).remainingSeconds = (resetTimer s).totalSeconds := by
  simp [resetTimer, updateButtonStates, updateDisplay, getInputTime]

theorem resetTimer_totalSeconds (s : State) :
    (resetTimer s).totalSeconds = (getInputTime s).2 := by
  simp [resetTimer, updateButtonStates, updateDisplay, getInputTime, clearInterval]

theorem resetTimer_minutesValue (s : State) :
    (resetTimer s).minutesValue = (getInputTime s).1.minutesValue := by
  simp [resetTimer, updateButtonStates, updateDisplay, getInputTime, clearInterval]

theorem resetTimer_secondsValue (s : State) :
    (resetTimer s).secondsValue = (getInputTime s).1.secondsValue := by
  simp [resetTimer, updateButtonStates, updateDisplay, getInputTime, clearInterval]

/-! ## Counting down -/

/-- A second `updateDisplay` overwrites whatever the first one wrote. -/
theorem updateDisplay_absorb (s : State) (x r y : Num) :
    updateDisplay { updateDisplay s x with remainingSeconds := r } y =
      updateDisplay { s with remainingSeconds := r } y := by
  simp only [updateDisplay, updateProgressBar_eq]

/-- A tick of a live interval with time left takes one second off and refreshes the
display. -/
theorem step_tick_pos (s : State) (h : Nat) (hl : h ∈ s.liveIntervals)
    (hr : Num.gt s.remainingSeconds (.int 0) = true) :
    step s (.tick h) =
      updateDisplay { s with remainingSeconds := Num.sub s.remainingSeconds (.int 1) }
        (Num.sub s.remainingSeconds (.int 1)) := by
  simp [step, tickCallback, hl, hr]

/-- One second off a whole number of seconds between 1 and `2^53` is exact. -/
theorem sub_one_exact (v : Int) (h0 : 0 < v) (h1 : v < 9007199254740992) :
    Num.gt (.int v) (.int 0) = true ∧ Num.sub (.int v) (.int 1) = .int (v - 1) := by
  refine ⟨by simpa [Num.gt, Num.lt] using h0, ?_⟩
  simp only [Num.sub]
  exact roundInt_small _ (by rw [abs_lt]; omega)

/-- After `k + 1` ticks with at least that much time left, below `2^53`, the state
is the one a single refresh at `remainingSeconds - (k + 1)` gives. -/
theorem run_ticks (h : Nat) (k : Nat) : ∀ (s : State) (v : Int), h ∈ s.liveIntervals →
    s.remainingSeconds = .int v → ((k : Int) + 1) ≤ v → v < 9007199254740992 →
    run s (List.replicate (k + 1) (.tick h)) =
      updateDisplay { s with remainingSeconds := .int (v - (k + 1)) }
        (.int (v - (k + 1))) := by
  induction k with
  | zero =>
    intro s v hl hv hr hb
    obtain ⟨g1, g2⟩ := sub_one_exact v (by omega) hb
    have hr1 : Num.gt s.remainingSeconds (.int 0) = true := by rw [hv]; exact g1
    simp only [run, List.replicate, List.foldl, step_tick_pos s h hl hr1, hv, g2]
    simp
  | succ k ih =>
    intro s v hl hv hr hb
    obtain ⟨g1, g2⟩ := sub_one_exact v (by omega) hb
    have hr1 : Num.gt s.remainingSeconds (.int 0) = true := by rw [hv]; exact g1
    have e : run s (List.replicate (k + 1 + 1) (.tick h)) =
        run (step s (.tick h)) (List.replicate (k + 1) (.tick h)) := rfl
    rw [e, step_tick_pos s h hl hr1, hv, g2, ih _ (v - 1)]
    · rw [updateDisplay_absorb]
      have e2 : v - 1 - ((k : Int) + 1) = v - (((k + 1 : Nat) : Int) + 1) := by
        push_cast; ring
      rw [e2]
    · simpa [updateDisplay] using hl
    · simp [updateDisplay]
    · push_cast at hr; omega
    · omega

theorem run_cons (s : State) (e : Event) (es : List Event) :
    run s (e :: es) = run (step s e) es := by
  simp [run]

theorem run_append (s : State) (es fs : List Event) :
    run s (es ++ fs) = run (run s es) fs := by
  simp [run, List.foldl_append]

theorem run_nil (s : State) : run s [] = s := by
  simp [run]

theorem step_start (s : State) : step s .start = startTimer s := by
  simp [step]

/-- Right after `startTimer` from a stopped, unfinished state the new handle is the
one in `timer` and it is live. -/
theorem startTimer_stopped (s : State) (hrun : s.isRunning = false)
    (hfin : s.finished = false) :
    startTimer s =
      { updateButtonStates { s with isRunning := true } with
        timer := some s.nextHandle
        liveIntervals := s.liveIntervals ++ [s.nextHandle]
        nextHandle := s.nextHandle + 1 } := by
  simp [startTimer, hrun, hfin, updateButtonStates]

/-- C2 (counterexample): on a page loaded with five seconds, `startTimer` and five
ticks of the live interval leave the timer running, not finished, and the alarm
not played. -/
theorem five_ticks_still_running :
    (load pageFive).isRunning = false ∧ (load pageFive).finished = false ∧
    (load pageFive).totalSeconds = .int 5 ∧ (load pageFive).remainingSeconds = .int 5 ∧
    (startTimer (load pageFive)).liveIntervals = [1] ∧
    ¬ ((run (load pageFive) (.start :: List.replicate 5 (.tick 1))).finished = true ∧
       (run (load pageFive) (.start :: List.replicate 5 (.tick 1))).isRunning = false ∧
       (run (load pageFive) (.start :: List.replicate 5 (.tick 1))).remainingSeconds
         = .int 0 ∧
       (run (load pageFive) (.start :: List.replicate 5 (.tick 1))).countdownText
         = "00:00" ∧
       (run (load pageFive) (.start :: List.replicate 5 (.tick 1))).progressPercent
         = .fin 100 ∧
       (run (load pageFive) (.start :: List.replicate 5 (.tick 1))).playCount = 1) := by
  decide!

/-- C2 (amended): from a stopped, unfinished state with
`totalSeconds = remainingSeconds = 5`, `startTimer` and five ticks give
`remainingSeconds = 0`, display `00:00` and progress 100 with the timer still
running and the alarm not played; the sixth tick gives `finished = true`,
`isRunning = false`, the same display and progress, and one call of `play()`. -/
theorem five_second_countdown (s : State) (hrun : s.isRunning = false)
    (hfin : s.finished = false) (htot : s.totalSeconds = .int 5)
    (hrem : s.remainingSeconds = .int 5) :
    ((run s (.start :: List.replicate 5 (.tick s.nextHandle))).isRunning = true ∧
     (run s (.start :: List.replicate 5 (.tick s.nextHandle))).finished = false ∧
     (run s (.start :: List.replicate 5 (.tick s.nextHandle))).remainingSeconds
       = .int 0 ∧
     (run s (.start :: List.replicate 5 (.tick s.nextHandle))).countdownText = "00:00" ∧
     (run s (.start :: List.replicate 5 (.tick s.nextHandle))).progressPercent
       = .fin 100 ∧
     (run s (.start :: List.replicate 5 (.tick s.nextHandle))).playCount = s.playCount) ∧
    ((run s (.start :: List.replicate 6 (.tick s.nextHandle))).isRunning = false ∧
     (run s (.start :: List.replicate 6 (.tick s.nextHandle))).finished = true ∧
     (run s (.start :: List.replicate 6 (.tick s.nextHandle))).remainingSeconds
       = .int 0 ∧
     (run s (.start :: List.replicate 6 (.tick s.nextHandle))).countdownText = "00:00" ∧
     (run s (.start :: List.replicate 6 (.tick s.nextHandle))).progressPercent
       = .fin 100 ∧
     (run s (.start :: List.replicate 6 (.tick s.nextHandle))).playCount
       = s.playCount + 1) := by
  have hl : s.nextHandle ∈ (startTimer s).liveIntervals := by
    rw [startTimer_stopped s hrun hfin]; simp
  have hr : (startTimer s).remainingSeconds = .int 5 := by
    rw [startTimer_stopped s hrun hfin]; simp [updateButtonStates, hrem]
  have e5 : run s (.start :: List.replicate 5 (.tick s.nextHandle)) =
      run (startTimer s) (List.replicate (4 + 1) (.tick s.nextHandle)) := by
    rw [run_cons, step_start]
  have e6 : run s (.start :: List.replicate 6 (.tick s.nextHandle)) =
      step (run s (.start :: List.replicate 5 (.tick s.nextHandle)))
        (.tick s.nextHandle) := by
    rw [show (6 : Nat) = 5 + 1 from rfl, List.replicate_succ', ← List.cons_append,
      run_append, run_cons _ _ [], run_nil]
  have txt : padStart (Dbl.floor (Num.div (.int 0) (.int 60))).toJSString 2 '0' ++ ":" ++
      padStart (Num.mod (.int 0) (.int 60)).toJSString 2 '0' = "00:00" := by decide!
  have pct : Dbl.mul (Num.div (Num.sub (.int 5) (.int 0)) (.int 5)) (toDouble 100)
      = .fin 100 := by decide!
  have g5 : Num.gt (.int 5) (.int 0) = true := by decide
  have g0 : Num.gt (.int 0) (.int 0) = false := by decide
  have key := run_ticks s.nextHandle 4 (startTimer s) 5 hl hr (by decide) (by decide)
  rw [← e5, startTimer_stopped s hrun hfin] at key
  have z : ((5 : Int) - (((4 : Nat) : Int) + 1)) = 0 := by decide
  rw [z] at key
  refine ⟨?_, ?_⟩
  · rw [key]
    simp [updateDisplay, updateButtonStates, htot, txt, hfin, pct, g5]
  · rw [e6, key]
    simp [step, tickCallback, updateDisplay, updateButtonStates, htot, txt, pct, g5, g0,
      clearInterval, clearHandle, setAlarmSound, showTimerFinished, focusFirstButton]

/-- C2 (witness): the amended statement at the page loaded with five seconds. -/
theorem five_second_countdown_witness :
    (run (load pageFive)
      (.start :: List.replicate 6 (.tick (load pageFive).nextHandle))).finished = true ∧
    (run (load pageFive)
      (.start :: List.replicate 6 (.tick (load pageFive).nextHandle))).playCount
        = (load pageFive).playCount + 1 :=
  have h := five_second_countdown (load pageFive) (by decide!) (by decide!) (by decide!)
    (by decide!)
  ⟨h.2.2.1, h.2.2.2.2.2.2⟩

/-! ## What `startTimer` and `pauseTimer` leave alone -/

@[simp] theorem pauseTimer_remainingSeconds (s : State) :
    (pauseTimer s).remainingSeconds = s.remainingSeconds := by
  unfold pauseTimer
  split_ifs <;> simp [updateButtonStates, clearInterval]

@[simp] theorem pauseTimer_totalSeconds (s : State) :
    (pauseTimer s).totalSeconds = s.totalSeconds := by
  unfold pauseTimer
  split_ifs <;> simp [updateButtonStates, clearInterval]

@[simp] theorem pauseTimer_finished (s : State) :
    (pauseTimer s).finished = s.finished := by
  unfold pauseTimer
  split_ifs <;> simp [updateButtonStates, clearInterval]

@[simp] theorem pauseTimer_isRunning (s : State) : (pauseTimer s).isRunning = false := by
  unfold pauseTimer
  split_ifs with h
  · simpa using h
  · simp [updateButtonStates, clearInterval]

@[simp] theorem pauseTimer_nextHandle (s : State) :
    (pauseTimer s).nextHandle = s.nextHandle := by
  unfold pauseTimer
  split_ifs <;> simp [updateButtonStates, clearInterval]

@[simp] theorem startTimer_remainingSeconds (s : State) :
    (startTimer s).remainingSeconds = s.remainingSeconds := by
  unfold startTimer
  split_ifs <;> simp [updateButtonStates]

@[simp] theorem startTimer_totalSeconds (s : State) :
    (startTimer s).totalSeconds = s.totalSeconds := by
  unfold startTimer
  split_ifs <;> simp [updateButtonStates]

@[simp] theorem startTimer_finished (s : State) :
    (startTimer s).finished = s.finished := by
  unfold startTimer
  split_ifs <;> simp [updateButtonStates]

/-! ## Load without validation -/

/-- C3 (failing input): with `-1` in the minutes input when the script runs, the
initial state has `totalSeconds = remainingSeconds = -60`, so
`0 ≤ remainingSeconds` fails in a reachable state. -/
theorem load_negative_minutes :
    (load pageNegative).totalSeconds = .int (-60) ∧
    (load pageNegative).remainingSeconds = .int (-60) ∧
    (load pageNegative).countdownText = "-1:00" ∧
    ¬ (Num.le (.int 0) (run (load pageNegative) []).remainingSeconds = true ∧
       Num.le (run (load pageNegative) []).remainingSeconds
         (run (load pageNegative) []).totalSeconds = true) := by
  decide!

/-- A whole number that is not negative rounds to a double that is not negative. -/
theorem roundInt_nonneg (n : Int) (h : 0 ≤ n) : Num.le (.int 0) (roundInt n) = true := by
  by_cases h1 : 9007199254740992 ≤ n
  · rcases roundInt_big n h1 with e | ⟨v, e, hv⟩
    · rw [e]; rfl
    · rw [e]; simp [Num.le, Num.lt, Num.strictEq]; omega
  · rw [roundInt_small n (by rw [abs_lt]; omega)]
    simp [Num.le, Num.lt, Num.strictEq]; omega

theorem le_zero_cases (x : Num) (h : Num.le (.int 0) x = true) :
    x = .posInf ∨ ∃ v : Int, 0 ≤ v ∧ x = .int v := by
  cases x with
  | nan => simp [Num.le, Num.lt, Num.strictEq] at h
  | posInf => exact Or.inl rfl
  | negInf => simp [Num.le, Num.lt, Num.strictEq] at h
  | int v =>
    refine Or.inr ⟨v, ?_, rfl⟩
    simp [Num.le, Num.lt, Num.strictEq] at h
    omega

theorem nonNegative_nonneg (str : String) :
    Num.le (.int 0) (nonNegative (parseInt str)) = true := by
  rw [nonNegative_parseInt]
  exact roundInt_nonneg _ (claimedMinutes_nonneg _)

/-- The value `getInputTime` returns is never negative and never NaN. -/
theorem getInputTime_nonneg (s : State) : Num.le (.int 0) (getInputTime s).2 = true := by
  have hs := claimedSeconds_range (parseWhole s.secondsValue)
  simp only [getInputTime, capSeconds_parseInt]
  rcases le_zero_cases _ (nonNegative_nonneg s.minutesValue) with e | ⟨v, hv, e⟩
  · rw [e]; rfl
  · rw [e]
    simp only [Num.mul]
    rcases le_zero_cases _ (roundInt_nonneg (v * 60) (by omega)) with e2 | ⟨w, hw, e2⟩
    · rw [e2]; rfl
    · rw [e2]
      simp only [Num.add]
      exact roundInt_nonneg _ (by omega)

theorem resetTimer_total_nonneg (s : State) :
    Num.le (.int 0) (resetTimer s).totalSeconds = true := by
  rw [resetTimer_totalSeconds]; exact getInputTime_nonneg s

/-- One second off a number above zero is not negative. -/
theorem sub_one_nonneg (x : Num) (h : Num.gt x (.int 0) = true) :
    Num.le (.int 0) (Num.sub x (.int 1)) = true := by
  cases x with
  | nan => simp [Num.gt, Num.lt] at h
  | posInf => rfl
  | negInf => simp [Num.gt, Num.lt] at h
  | int v =>
    simp [Num.gt, Num.lt] at h
    simp only [Num.sub]
    exact roundInt_nonneg _ (by omega)

/-- A number that is neither above zero nor below it is zero. -/
theorem eq_zero_of_not_gt (x : Num) (h0 : Num.le (.int 0) x = true)
    (h : ¬ Num.gt x (.int 0) = true) : x = .int 0 := by
  rcases le_zero_cases x h0 with e | ⟨v, hv, e⟩
  · rw [e] at h; exact absurd rfl h
  · rw [e] at h ⊢
    simp [Num.gt, Num.lt] at h
    congr 1; omega

/-- Every event keeps `remainingSeconds` from going below zero, and a finished
timer at zero: the bound can only fail in states that descend from a load without
any reset. -/
theorem countInv_step (s : State) (e : Event) (hc : CountInv s) : CountInv (step s e) := by
  have hreset : ∀ t : State, CountInv (resetTimer t) := by
    intro t
    refine ⟨?_, ?_⟩
    · rw [resetTimer_remaining_eq_total]; exact resetTimer_total_nonneg t
    · intro h; rw [resetTimer_finished] at h; exact absurd h (by decide)
  cases e with
  | start =>
    simp only [step, CountInv, startTimer_finished, startTimer_remainingSeconds]
    exact hc
  | pause =>
    simp only [step, CountInv, pauseTimer_finished, pauseTimer_remainingSeconds]
    exact hc
  | reset => exact hreset s
  | preset i =>
    simp only [step]
    split
    · exact hreset _
    · exact hc
  | editMinutes v => exact hreset _
  | editSeconds v => exact hreset _
  | selectAlarm v => simpa [step, CountInv, setAlarmSound] using hc
  | appearance b => simpa [step, CountInv, darkModeChange] using hc
  | tick h =>
    simp only [step, tickCallback]
    split_ifs with h1 h2
    · simp only [CountInv, updateDisplay, updateProgressBar_remainingSeconds,
        updateProgressBar_finished]
      refine ⟨sub_one_nonneg _ h2, ?_⟩
      intro hfin
      have := hc.2 hfin
      rw [this] at h2
      exact absurd h2 (by decide)
    · simp only [CountInv, updateButtonStates, clearInterval, setAlarmSound,
        showTimerFinished, focusFirstButton]
      exact ⟨hc.1, fun _ => eq_zero_of_not_gt _ hc.1 h2⟩
    · exact hc
  | cueTimeout h =>
    simp only [step]
    split_ifs
    · simpa [CountInv, cueCallback] using hc
    · exact hc

theorem countInv_run (es : List Event) : ∀ s : State, CountInv s → CountInv (run s es) := by
  induction es with
  | nil => intro s hs; rwa [run_nil]
  | cons e es ih => intro s hs; rw [run_cons]; exact ih _ (countInv_step s e hs)

theorem load_remaining_eq_total (p : Page) :
    (load p).remainingSeconds = (load p).totalSeconds := by
  simp [load, updateButtonStates, updateDisplay, setAlarmSound]

theorem load_finished (p : Page) : (load p).finished = false := by
  simp [load, updateButtonStates, updateDisplay, setAlarmSound]

theorem countInv_load (p : Page) (hp : Num.le (.int 0) (load p).totalSeconds = true) :
    CountInv (load p) := by
  refine ⟨by rw [load_remaining_eq_total]; exact hp, ?_⟩
  rw [load_finished]
  intro h
  exact absurd h (by decide)

/-! ## The contract of `resetTimer` -/

/-- C1 (counterexample): with 200000000000000 in the minutes input and 5 in the
seconds input, `resetTimer` writes both back unchanged and stores
`totalSeconds = 12000000000000004`, which is not sixty times the minutes plus the
seconds; with 400 nines in the minutes input it writes back `Infinity` and stores
an infinite `totalSeconds`. -/
theorem reset_rounds_large_minutes :
    (resetTimer bigInputs).minutesValue = "200000000000000" ∧
    parseWhole "200000000000000" = some 200000000000000 ∧
    (resetTimer bigInputs).secondsValue = "5" ∧
    parseWhole "5" = some 5 ∧
    (resetTimer bigInputs).totalSeconds = .int 12000000000000004 ∧
    ¬ ((resetTimer bigInputs).totalSeconds = .int (200000000000000 * 60 + 5)) ∧
    (resetTimer hugeInputs).minutesValue = "Infinity" ∧
    (resetTimer hugeInputs).totalSeconds = .posInf := by
  decide!

/-- C1 (amended): whatever the state and whatever the two inputs hold, after
`resetTimer` `remainingSeconds = totalSeconds`, `totalSeconds ≥ 0`,
`isRunning = false`, `finished = false` and the seconds written back are in
`[0, 59]`; and as long as the minutes input reads as a whole number `m` (0 when it
is non-numeric, empty or negative) with `m * 60 + 59 < 2^53`, the minutes written
back are `m ≥ 0` and `totalSeconds = m * 60 + sec` for the seconds `sec` written
back. -/
theorem resetTimer_contract (s : State) (mv sv : String) :
    ((resetTimer { s with minutesValue := mv, secondsValue := sv }).remainingSeconds
        = (resetTimer { s with minutesValue := mv, secondsValue := sv }).totalSeconds ∧
      Num.le (.int 0)
        (resetTimer { s with minutesValue := mv, secondsValue := sv }).totalSeconds = true ∧
      (resetTimer { s with minutesValue := mv, secondsValue := sv }).isRunning = false ∧
      (resetTimer { s with minutesValue := mv, secondsValue := sv }).finished = false ∧
      ∃ sec : Int,
        (resetTimer { s with minutesValue := mv, secondsValue := sv }).secondsValue
          = toString sec ∧ 0 ≤ sec ∧ sec ≤ 59) ∧
    (claimedMinutes (parseWhole mv) * 60 + 59 < 9007199254740992 →
      ∃ m sec : Int,
        (resetTimer { s with minutesValue := mv, secondsValue := sv }).minutesValue
          = toString m ∧
        (resetTimer { s with minutesValue := mv, secondsValue := sv }).secondsValue
          = toString sec ∧
        0 ≤ m ∧ 0 ≤ sec ∧ sec ≤ 59 ∧
        (resetTimer { s with minutesValue := mv, secondsValue := sv }).totalSeconds
          = .int (m * 60 + sec) ∧
        0 ≤ m * 60 + sec) := by
  have h0 := claimedMinutes_nonneg (parseWhole mv)
  have hs := claimedSeconds_range (parseWhole sv)
  have d := (getInputTime_double { s with minutesValue := mv, secondsValue := sv }).2
  refine ⟨⟨resetTimer_remaining_eq_total _, resetTimer_total_nonneg _,
    resetTimer_isRunning _, resetTimer_finished _, claimedSeconds (parseWhole sv), ?_,
    hs.1, hs.2⟩, ?_⟩
  · rw [resetTimer_secondsValue, d]
  · intro hm
    obtain ⟨g1, g2⟩ := getInputTime_value { s with minutesValue := mv, secondsValue := sv }
      (by dsimp only; omega)
    refine ⟨claimedMinutes (parseWhole mv), claimedSeconds (parseWhole sv), ?_, ?_, h0,
      hs.1, hs.2, ?_, by omega⟩
    · rw [resetTimer_minutesValue, g2]
    · rw [resetTimer_secondsValue, g2]
    · rw [resetTimer_totalSeconds, g1]

/-- C1 (witness): the amended statement with 2 in the minutes input and 75 in the
seconds input: 2 minutes 59 seconds. -/
theorem resetTimer_contract_witness :
    (resetTimer { load pageFive with minutesValue := "2", secondsValue := "75" }
      ).totalSeconds = .int 179 ∧
    (resetTimer { load pageFive with minutesValue := "2", secondsValue := "75" }
      ).isRunning = false ∧
    ∃ m sec : Int,
      (resetTimer { load pageFive with minutesValue := "2", secondsValue := "75" }
        ).minutesValue = toString m ∧
      (resetTimer { load pageFive with minutesValue := "2", secondsValue := "75" }
        ).secondsValue = toString sec ∧
      0 ≤ m ∧ 0 ≤ sec ∧ sec ≤ 59 ∧
      (resetTimer { load pageFive with minutesValue := "2", secondsValue := "75" }
        ).totalSeconds = .int (m * 60 + sec) ∧
      0 ≤ m * 60 + sec :=
  ⟨by decide!, (resetTimer_contract (load pageFive) "2" "75").1.2.2.1,
   (resetTimer_contract (load pageFive) "2" "75").2 (by decide)⟩

/-! ## The seconds input is never disabled -/

/-- No event writes the `disabled` flag of the seconds input. -/
theorem secondsDisabled_step (s : State) (e : Event) :
    (step s e).secondsDisabled = s.secondsDisabled := by
  have hreset : ∀ t : State, (resetTimer t).secondsDisabled = t.secondsDisabled := by
    intro t
    simp [resetTimer, updateButtonStates, updateDisplay, getInputTime, clearInterval]
  cases e with
  | start =>
    simp only [step, startTimer]
    split_ifs <;> simp [updateButtonStates]
  | pause =>
    simp only [step, pauseTimer]
    split_ifs <;> simp [updateButtonStates, clearInterval]
  | reset => exact hreset s
  | preset i =>
    simp only [step]
    split
    · simp [presetClick, hreset]
    · rfl
  | editMinutes v => simp [step, hreset]
  | editSeconds v => simp [step, hreset]
  | selectAlarm v => simp [step, setAlarmSound]
  | appearance b => simp [step, darkModeChange]
  | tick h =>
    simp only [step, tickCallback]
    split_ifs <;>
      simp [updateDisplay, updateButtonStates, clearInterval, setAlarmSound,
        showTimerFinished, focusFirstButton]
  | cueTimeout h =>
    simp only [step]
    split_ifs <;> simp [cueCallback]

/-- C4 (failing input): after `startTimer` on a page whose seconds input is enabled,
the timer is running, the minutes input is disabled and the seconds input is
still enabled; a seconds edit then resets the running timer. -/
theorem seconds_input_enabled_while_running :
    (run (load pageFive) [.start]).isRunning = true ∧
    (run (load pageFive) [.start]).minutesDisabled = true ∧
    (run (load pageFive) [.start]).alarmSelectDisabled = true ∧
    (run (load pageFive) [.start]).secondsDisabled = false ∧
    (run (load pageFive) [.start, .tick 1, .tick 1]).remainingSeconds = .int 3 ∧
    (run (load pageFive) [.start, .tick 1, .tick 1, .editSeconds "30"]).remainingSeconds
      = .int 30 ∧
    (run (load pageFive) [.start, .tick 1, .tick 1, .editSeconds "30"]).isRunning
      = false := by
  decide!

/-! ## Colour of the progress bar -/

/-- C5 (counterexample): on a page loaded with nothing on the clock
`totalSeconds = 0` and `updateProgressBar` does not add the class `red`. -/
theorem zero_total_not_red :
    (load pageZero).totalSeconds = .int 0 ∧
    ¬ ((updateProgressBar (load pageZero)).red = true) := by
  decide!

/-- C5 (amended): when `totalSeconds` is 0, `updateProgressBar` adds neither `red`
nor `yellow`, whatever `remainingSeconds` is. -/
theorem zero_total_no_tier_class (s : State) (h : s.totalSeconds = .int 0) :
    (updateProgressBar s).red = false ∧ (updateProgressBar s).yellow = false := by
  have g : Num.gt (.int 0) (.int 0) = false := by decide
  simp [updateProgressBar_red, updateProgressBar_yellow, h, g]

/-- C5 (witness): the amended statement at the page loaded with nothing on the
clock. -/
theorem zero_total_no_tier_class_witness :
    (load pageZero).totalSeconds = .int 0 ∧
    (updateProgressBar (load pageZero)).red = false ∧
    (updateProgressBar (load pageZero)).yellow = false :=
  ⟨by decide!, zero_total_no_tier_class (load pageZero) (by decide!)⟩

/-- C6 (counterexample): with `totalSeconds = 1000000000000003` and
`remainingSeconds = 330000000000001` the exact ratio is above 33/100, yet the
ratio the script computes compares as at most 0.33 and `updateProgressBar` adds
`red`, not `yellow`. -/
theorem tier_differs_for_large_total :
    ¬ ((330000000000001 : ℚ) / 1000000000000003 ≤ 33 / 100) ∧
    (updateProgressBar tierBig).red = true ∧
    (updateProgressBar tierBig).yellow = false := by
  refine ⟨by norm_num, ?_, ?_⟩ <;> decide!

/-- C6 (amended): for whole `totalSeconds = t > 0` with `100 * t ≤ 2^53` and whole
`remainingSeconds = r` with `0 ≤ r ≤ t`, `updateProgressBar` leaves `red` alone iff
the exact ratio `r / t` is at most 33/100, `yellow` alone iff it is above 33/100
and at most 66/100, and neither iff it is above 66/100. -/
theorem progress_tier (s : State) (t r : Int) (ht : s.totalSeconds = .int t)
    (hr : s.remainingSeconds = .int r) (hpos : 0 < t) (h0 : 0 ≤ r) (hrt : r ≤ t)
    (hb : 100 * t ≤ 9007199254740992) :
    (((updateProgressBar s).red = true ∧ (updateProgressBar s).yellow = false) ↔
      (r : ℚ) / (t : ℚ) ≤ 33 / 100) ∧
    (((updateProgressBar s).yellow = true ∧ (updateProgressBar s).red = false) ↔
      (33 / 100 < (r : ℚ) / (t : ℚ) ∧ (r : ℚ) / (t : ℚ) ≤ 66 / 100)) ∧
    (((updateProgressBar s).red = false ∧ (updateProgressBar s).yellow = false) ↔
      66 / 100 < (r : ℚ) / (t : ℚ)) := by
  have htq : (0 : ℚ) < (t : ℚ) := by exact_mod_cast hpos
  have g : Num.gt (.int t) (.int 0) = true := by simpa [Num.gt, Num.lt] using hpos
  have c33 := ratio_le_const r t 33 _ (by push_cast; exact toDouble_33) (by norm_num)
    (by norm_num) (by norm_num) (by norm_num) (by norm_num) (by norm_num) h0 hrt hpos hb
  have c66 := ratio_le_const r t 66 _ (by push_cast; exact toDouble_66) (by norm_num)
    (by norm_num) (by norm_num) (by norm_num) (by norm_num) (by norm_num) h0 hrt hpos hb
  have e33 : (r : ℚ) / (t : ℚ) ≤ 33 / 100 ↔ 100 * r ≤ 33 * t := by
    rw [div_le_div_iff₀ htq (by norm_num)]
    constructor
    · intro h
      have : (100 : ℚ) * (r : ℚ) ≤ 33 * (t : ℚ) := by linarith
      exact_mod_cast this
    · intro h
      have : (100 : ℚ) * (r : ℚ) ≤ 33 * (t : ℚ) := by exact_mod_cast h
      linarith
  have e66 : (r : ℚ) / (t : ℚ) ≤ 66 / 100 ↔ 100 * r ≤ 66 * t := by
    rw [div_le_div_iff₀ htq (by norm_num)]
    constructor
    · intro h
      have : (100 : ℚ) * (r : ℚ) ≤ 66 * (t : ℚ) := by linarith
      exact_mod_cast this
    · intro h
      have : (100 : ℚ) * (r : ℚ) ≤ 66 * (t : ℚ) := by exact_mod_cast h
      linarith
  have hred : (updateProgressBar s).red = decide (100 * r ≤ 33 * t) := by
    simp only [updateProgressBar_red, ht, hr, g, toDouble_33, c33, Bool.true_and]
  have hyel : (updateProgressBar s).yellow =
      (!decide (100 * r ≤ 33 * t) && decide (100 * r ≤ 66 * t)) := by
    simp only [updateProgressBar_yellow, ht, hr, g, toDouble_33, toDouble_66, c33, c66,
      Bool.true_and]
  rw [hred, hyel, ← not_le, ← not_le, e33, e66]
  by_cases h1 : 100 * r ≤ 33 * t <;> by_cases h2 : 100 * r ≤ 66 * t <;>
    simp [h1, h2]
  all_goals omega

/-- C6 (witness): with `totalSeconds = 100`, `remainingSeconds` 66 and 34 give
`yellow`, 33 gives `red`, 67 gives neither. -/
theorem progress_tier_witness :
    ((updateProgressBar (tierState 66)).yellow = true ∧
      (updateProgressBar (tierState 66)).red = false) ∧
    ((updateProgressBar (tierState 34)).yellow = true ∧
      (updateProgressBar (tierState 34)).red = false) ∧
    ((updateProgressBar (tierState 33)).red = true ∧
      (updateProgressBar (tierState 33)).yellow = false) ∧
    ((updateProgressBar (tierState 67)).red = false ∧
      (updateProgressBar (tierState 67)).yellow = false) :=
  ⟨(progress_tier (tierState 66) 100 66 rfl rfl (by decide) (by decide) (by decide)
      (by decide)).2.1.mpr (by norm_num),
   (progress_tier (tierState 34) 100 34 rfl rfl (by decide) (by decide) (by decide)
      (by decide)).2.1.mpr (by norm_num),
   (progress_tier (tierState 33) 100 33 rfl rfl (by decide) (by decide) (by decide)
      (by decide)).1.mpr (by norm_num),
   (progress_tier (tierState 67) 100 67 rfl rfl (by decide) (by decide) (by decide)
      (by decide)).2.2.mpr (by norm_num)⟩

/-! ## The interval handle -/

theorem clearHandle_nil (t : Option Nat) : clearHandle t [] = [] := by
  cases t <;> simp [clearHandle]

theorem clearHandle_single (h : Nat) : clearHandle (some h) [h] = [] := by
  simp [clearHandle]

/-- Under the coupling, `clearInterval(timer)` empties the interval table. -/
theorem clearHandle_of_handleInv (s : State) (hi : HandleInv s) :
    clearHandle s.timer s.liveIntervals = [] := by
  cases hr : s.isRunning with
  | false => rw [hi.2 hr]; exact clearHandle_nil _
  | true =>
    obtain ⟨_, h, ht, hl⟩ := hi.1 hr
    rw [ht, hl]; exact clearHandle_single h

theorem handleInv_load (p : Page) : HandleInv (load p) := by
  simp [HandleInv, load, updateButtonStates, updateDisplay, setAlarmSound]

theorem handleInv_resetTimer (s t : State) (hi : HandleInv s) (ht : t.timer = s.timer)
    (hl : t.liveIntervals = s.liveIntervals) : HandleInv (resetTimer t) := by
  have := clearHandle_of_handleInv s hi
  simp [HandleInv, ht, hl, this]

theorem handleInv_startTimer (s : State) (hi : HandleInv s) : HandleInv (startTimer s) := by
  unfold startTimer
  split_ifs with hc
  · exact hi
  · simp only [Bool.or_eq_true, not_or, Bool.not_eq_true] at hc
    simp [HandleInv, updateButtonStates, hc.2, hi.2 hc.1]

theorem handleInv_pauseTimer (s : State) (hi : HandleInv s) : HandleInv (pauseTimer s) := by
  unfold pauseTimer
  split_ifs with hc
  · exact hi
  · have := clearHandle_of_handleInv s hi
    simp [HandleInv, updateButtonStates, clearInterval, this]

theorem handleInv_tickCallback (s : State) (hi : HandleInv s) :
    HandleInv (tickCallback s) := by
  unfold tickCallback
  split_ifs with hc
  · simpa [HandleInv, updateDisplay] using hi
  · have := clearHandle_of_handleInv s hi
    simp [HandleInv, updateButtonStates, clearInterval, this, setAlarmSound,
      showTimerFinished, focusFirstButton]

/-- Every event keeps the coupling. -/
theorem handleInv_step (s : State) (e : Event) (hi : HandleInv s) :
    HandleInv (step s e) := by
  cases e with
  | start => exact handleInv_startTimer s hi
  | pause => exact handleInv_pauseTimer s hi
  | reset => exact handleInv_resetTimer s s hi rfl rfl
  | preset i =>
    simp only [step]
    split
    · exact handleInv_resetTimer s _ hi rfl rfl
    · exact hi
  | editMinutes v => exact handleInv_resetTimer s _ hi rfl rfl
  | editSeconds v => exact handleInv_resetTimer s _ hi rfl rfl
  | selectAlarm v => simpa [step, HandleInv, setAlarmSound] using hi
  | appearance b => simpa [step, HandleInv, darkModeChange] using hi
  | tick h =>
    simp only [step]
    split_ifs
    · exact handleInv_tickCallback s hi
    · exact hi
  | cueTimeout h =>
    simp only [step]
    split_ifs
    · simpa [HandleInv, cueCallback] using hi
    · exact hi

theorem handleInv_run (es : List Event) : ∀ s : State, HandleInv s → HandleInv (run s es) := by
  induction es with
  | nil => intro s hi; simpa [run] using hi
  | cons e es ih =>
    intro s hi
    rw [run_cons]
    exact ih _ (handleInv_step s e hi)

/-- Every state reachable from a page load satisfies the coupling. -/
theorem handleInv_reachable (p : Page) (es : List Event) : HandleInv (run (load p) es) :=
  handleInv_run es _ (handleInv_load p)

theorem handleInv_of_reachable (s : State) (hreach : Reachable s) : HandleInv s := by
  obtain ⟨p, es, rfl⟩ := hreach
  exact handleInv_reachable p es

/-- C7 (counterexample): in the running state with
`remainingSeconds = 18014398509481988`, after `pauseTimer` and `startTimer` the next
tick leaves `remainingSeconds` at 18014398509481988, not one less. -/
theorem resume_tick_stuck_above_two_pow_54 :
    (run stuckIdle [.start]).isRunning = true ∧
    (run stuckIdle [.start]).remainingSeconds = .int 18014398509481988 ∧
    (step (startTimer (pauseTimer (run stuckIdle [.start])))
        (.tick (run stuckIdle [.start]).nextHandle)).remainingSeconds
      = .int 18014398509481988 ∧
    ¬ ((step (startTimer (pauseTimer (run stuckIdle [.start])))
        (.tick (run stuckIdle [.start]).nextHandle)).remainingSeconds
      = .int (18014398509481988 - 1)) := by
  decide!

/-- C7 (amended): in a reachable state with `isRunning = true`, `pauseTimer` gives
`isRunning = false`, `finished = false`, no live interval and the same
`remainingSeconds` and `totalSeconds`; `startTimer` after it gives
`isRunning = true` with the same two values and one live interval, whose next tick
gives `remainingSeconds - 1` when `remainingSeconds > 0`, the subtraction being the
script's; for a whole `remainingSeconds = v` with `0 < v < 2^53` that is the whole
number `v - 1`.  In any state `t` with `isRunning = false`, `pauseTimer` changes
nothing. -/
theorem pause_then_resume (s t : State) (hreach : Reachable s)
    (hrun : s.isRunning = true) :
    ((pauseTimer s).isRunning = false ∧ (pauseTimer s).finished = false ∧
      (pauseTimer s).liveIntervals = [] ∧
      (pauseTimer s).remainingSeconds = s.remainingSeconds ∧
      (pauseTimer s).totalSeconds = s.totalSeconds) ∧
    ((startTimer (pauseTimer s)).isRunning = true ∧
      (startTimer (pauseTimer s)).finished = false ∧
      (startTimer (pauseTimer s)).liveIntervals = [s.nextHandle] ∧
      (startTimer (pauseTimer s)).remainingSeconds = s.remainingSeconds ∧
      (startTimer (pauseTimer s)).totalSeconds = s.totalSeconds ∧
      (Num.gt s.remainingSeconds (.int 0) = true →
        (step (startTimer (pauseTimer s)) (.tick s.nextHandle)).remainingSeconds
          = Num.sub s.remainingSeconds (.int 1)) ∧
      (∀ v : Int, s.remainingSeconds = .int v → 0 < v → v < 9007199254740992 →
        (step (startTimer (pauseTimer s)) (.tick s.nextHandle)).remainingSeconds
          = .int (v - 1))) ∧
    (t.isRunning = false → pauseTimer t = t) := by
  have hi := handleInv_of_reachable s hreach
  have hfin : s.finished = false := (hi.1 hrun).1
  have hp := handleInv_pauseTimer s hi
  have hpl : (pauseTimer s).liveIntervals = [] := hp.2 (pauseTimer_isRunning s)
  have hst := startTimer_stopped (pauseTimer s) (pauseTimer_isRunning s)
    (by rw [pauseTimer_finished, hfin])
  have hlive : (startTimer (pauseTimer s)).liveIntervals = [s.nextHandle] := by
    rw [hst]; simp [hpl]
  have htick : Num.gt s.remainingSeconds (.int 0) = true →
      (step (startTimer (pauseTimer s)) (.tick s.nextHandle)).remainingSeconds
        = Num.sub s.remainingSeconds (.int 1) := by
    intro hpos
    rw [step_tick_pos _ _ (by rw [hlive]; simp) (by simpa using hpos)]
    simp [updateDisplay]
  refine ⟨⟨pauseTimer_isRunning s, by rw [pauseTimer_finished, hfin], hpl,
    pauseTimer_remainingSeconds s, pauseTimer_totalSeconds s⟩,
    ⟨?_, ?_, hlive, ?_, ?_, htick, ?_⟩, ?_⟩
  · rw [hst]; simp [updateButtonStates]
  · rw [startTimer_finished, pauseTimer_finished, hfin]
  · simp
  · simp
  · intro v hv h0 hb
    obtain ⟨g1, g2⟩ := sub_one_exact v h0 hb
    rw [htick (by rw [hv]; exact g1), hv, g2]
  · intro h
    simp [pauseTimer, h]

/-- C7 (witness): the page loaded with five seconds, started and ticked once. -/
theorem pause_then_resume_witness :
    (pauseTimer (run (load pageFive) [.start, .tick 1])).isRunning = false ∧
    (pauseTimer (run (load pageFive) [.start, .tick 1])).remainingSeconds
      = (run (load pageFive) [.start, .tick 1]).remainingSeconds ∧
    (step (startTimer (pauseTimer (run (load pageFive) [.start, .tick 1])))
        (.tick (run (load pageFive) [.start, .tick 1]).nextHandle)).remainingSeconds
      = .int 3 ∧
    pauseTimer (load pageFive) = load pageFive :=
  have h := pause_then_resume (run (load pageFive) [.start, .tick 1]) (load pageFive)
    ⟨pageFive, [.start, .tick 1], rfl⟩ (by decide!)
  ⟨h.1.1, h.1.2.2.2.1, h.2.1.2.2.2.2.2.2 4 (by decide!) (by decide) (by decide),
    h.2.2 (by decide!)⟩

/-- A quiet event in a state that is not running and has no live interval leaves
`remainingSeconds`, `isRunning` and the interval table as they are. -/
theorem step_quiet (s : State) (e : Event) (hq : e.quiet = true)
    (hrun : s.isRunning = false) (hl : s.liveIntervals = []) :
    (step s e).isRunning = false ∧ (step s e).liveIntervals = [] ∧
    (step s e).remainingSeconds = s.remainingSeconds := by
  cases e with
  | start => simp [Event.quiet] at hq
  | reset => simp [Event.quiet] at hq
  | preset i => simp [Event.quiet] at hq
  | editMinutes v => simp [Event.quiet] at hq
  | editSeconds v => simp [Event.quiet] at hq
  | pause => simp [step, pauseTimer, hrun, hl]
  | selectAlarm v => simp [step, setAlarmSound, hrun, hl]
  | appearance b => simp [step, darkModeChange, hrun, hl]
  | tick h => simp [step, hrun, hl]
  | cueTimeout h =>
    simp only [step]
    split_ifs <;> simp [cueCallback, hrun, hl]

theorem run_quiet (es : List Event) : ∀ s : State, (∀ e ∈ es, e.quiet = true) →
    s.isRunning = false → s.liveIntervals = [] →
    (run s es).remainingSeconds = s.remainingSeconds := by
  induction es with
  | nil => intro s _ _ _; simp [run]
  | cons e es ih =>
    intro s hq hrun hl
    have h1 := step_quiet s e (hq e (List.mem_cons_self _ _)) hrun hl
    rw [run_cons, ih (step s e) (fun x hx => hq x (List.mem_cons_of_mem _ hx)) h1.1 h1.2.1,
      h1.2.2]

/-- C8: after `resetTimer` in a reachable state, running or not, no interval is
live, and along every following sequence of events without start, reset, preset click or
duration edit (ticks of any handle, pause, alarm selection, appearance toggle,
cue timeout) `remainingSeconds` keeps the value `resetTimer` gave it. -/
theorem reset_stops_countdown (s : State) (es : List Event) (hreach : Reachable s)
    (hq : ∀ e ∈ es, e.quiet = true) :
    (resetTimer s).liveIntervals = [] ∧
    (run (resetTimer s) es).remainingSeconds = (resetTimer s).remainingSeconds := by
  have hi := handleInv_of_reachable s hreach
  have hl : (resetTimer s).liveIntervals = [] := by
    rw [resetTimer_liveIntervals]; exact clearHandle_of_handleInv s hi
  exact ⟨hl, run_quiet es _ hq (resetTimer_isRunning s) hl⟩

/-- C8 (witness): reset two ticks into a five second countdown, then two more tick
periods of the old handle and a pause. -/
theorem reset_stops_countdown_witness :
    (run (load pageFive) [.start, .tick 1, .tick 1]).isRunning = true ∧
    (resetTimer (run (load pageFive) [.start, .tick 1, .tick 1])).liveIntervals = [] ∧
    (run (resetTimer (run (load pageFive) [.start, .tick 1, .tick 1]))
        [.tick 1, .tick 1, .pause]).remainingSeconds
      = (resetTimer (run (load pageFive) [.start, .tick 1, .tick 1])).remainingSeconds :=
  ⟨by decide!,
   reset_stops_countdown (run (load pageFive) [.start, .tick 1, .tick 1])
    [.tick 1, .tick 1, .pause] ⟨pageFive, [.start, .tick 1, .tick 1], rfl⟩ (by decide)⟩

/-- C9 (counterexample): from the stopped state with
`remainingSeconds = 18014398509481988`, two calls of `startTimer` and one tick
leave `remainingSeconds` at 18014398509481988, not one less. -/
theorem double_start_tick_stuck_above_two_pow_54 :
    stuckIdle.isRunning = false ∧ stuckIdle.finished = false ∧
    stuckIdle.remainingSeconds = .int 18014398509481988 ∧
    (run stuckIdle [.start, .start, .tick stuckIdle.nextHandle]).remainingSeconds
      = .int 18014398509481988 ∧
    ¬ ((run stuckIdle [.start, .start, .tick stuckIdle.nextHandle]).remainingSeconds
      = .int (18014398509481988 - 1)) := by
  decide!

/-- C9 (amended): `startTimer` twice is `startTimer` once, as whole states, interval
table included; and in a reachable state that is stopped, unfinished and has time left,
two calls leave exactly one live interval, whose tick takes off one second by the
script's subtraction; for a whole `remainingSeconds = v` with `0 < v < 2^53` the
result is the whole number `v - 1`. -/
theorem startTimer_idempotent :
    (∀ s : State, startTimer (startTimer s) = startTimer s) ∧
    (∀ r : State, Reachable r → r.isRunning = false → r.finished = false →
      Num.gt r.remainingSeconds (.int 0) = true →
      (startTimer (startTimer r)).liveIntervals = [r.nextHandle] ∧
      (run r [.start, .start, .tick r.nextHandle]).remainingSeconds
        = Num.sub r.remainingSeconds (.int 1) ∧
      (∀ v : Int, r.remainingSeconds = .int v → v < 9007199254740992 →
        (run r [.start, .start, .tick r.nextHandle]).remainingSeconds = .int (v - 1))) := by
  have idem : ∀ s : State, startTimer (startTimer s) = startTimer s := by
    intro s
    by_cases hc : (s.isRunning || s.finished) = true
    · have e : startTimer s = s := by simp [startTimer, hc]
      rw [e, e]
    · have hrun : (startTimer s).isRunning = true := by
        simp only [Bool.or_eq_true, not_or, Bool.not_eq_true] at hc
        rw [startTimer_stopped s hc.1 hc.2]
        simp [updateButtonStates]
      generalize startTimer s = u at hrun
      simp [startTimer, hrun]
  refine ⟨idem, ?_⟩
  intro r hreach hrun hfin hpos
  have hi := handleInv_of_reachable r hreach
  have hl : (startTimer r).liveIntervals = [r.nextHandle] := by
    rw [startTimer_stopped r hrun hfin]
    simp [hi.2 hrun]
  have htick : (run r [.start, .start, .tick r.nextHandle]).remainingSeconds
      = Num.sub r.remainingSeconds (.int 1) := by
    rw [run_cons, run_cons, run_cons, run_nil, step_start, step_start, idem,
      step_tick_pos _ _ (by rw [hl]; simp) (by simpa using hpos)]
    simp [updateDisplay]
  refine ⟨by rw [idem, hl], htick, ?_⟩
  intro v hv hb
  have h0 : 0 < v := by simpa [hv, Num.gt, Num.lt] using hpos
  rw [htick, hv, (sub_one_exact v h0 hb).2]

/-- C9 (witness): the page loaded with five seconds. -/
theorem startTimer_idempotent_witness :
    startTimer (startTimer (load pageFive)) = startTimer (load pageFive) ∧
    (startTimer (startTimer (load pageFive))).liveIntervals
      = [(load pageFive).nextHandle] ∧
    (run (load pageFive)
        [.start, .start, .tick (load pageFive).nextHandle]).remainingSeconds
      = .int 4 :=
  have h := startTimer_idempotent.2 (load pageFive) ⟨pageFive, [], rfl⟩ (by decide!)
    (by decide!) (by decide!)
  ⟨startTimer_idempotent.1 (load pageFive), h.1, h.2.2 5 (by decide!) (by decide)⟩

/-- C10: in every reachable state at most one interval is live, one is live iff
`isRunning = true`, and `startTimer` changes the interval table only when it is
empty, in which case the table becomes the single fresh handle. -/
theorem one_live_handle (s : State) (hreach : Reachable s) :
    s.liveIntervals.length ≤ 1 ∧
    (s.liveIntervals ≠ [] ↔ s.isRunning = true) ∧
    ((startTimer s).liveIntervals ≠ s.liveIntervals →
      s.liveIntervals = [] ∧ (startTimer s).liveIntervals = [s.nextHandle]) := by
  have hi := handleInv_of_reachable s hreach
  cases hrun : s.isRunning with
  | false =>
    have hl := hi.2 hrun
    refine ⟨by simp [hl], by simp [hl], fun _ => ⟨hl, ?_⟩⟩
    cases hfin : s.finished with
    | false => rw [startTimer_stopped s hrun hfin]; simp [hl]
    | true =>
      have e : startTimer s = s := by simp [startTimer, hfin]
      exact absurd (by rw [e]) ‹(startTimer s).liveIntervals ≠ s.liveIntervals›
  | true =>
    obtain ⟨_, h, _, hl⟩ := hi.1 hrun
    have e : startTimer s = s := by simp [startTimer, hrun]
    refine ⟨by simp [hl], by simp [hl], fun hne => absurd (by rw [e]) hne⟩

/-- C10 (witness): the page loaded with five seconds, started and ticked once. -/
theorem one_live_handle_witness :
    (run (load pageFive) [.start, .tick 1]).liveIntervals.length ≤ 1 ∧
    ((run (load pageFive) [.start, .tick 1]).liveIntervals ≠ [] ↔
      (run (load pageFive) [.start, .tick 1]).isRunning = true) :=
  have h := one_live_handle (run (load pageFive) [.start, .tick 1])
    ⟨pageFive, [.start, .tick 1], rfl⟩
  ⟨h.1, h.2.1⟩

/-! ## Invariants of the reachable states -/

/-- A property that holds after load and survives every event holds in every
reachable state. -/
theorem reachable_induction (P : State → Prop) (hload : ∀ p : Page, P (load p))
    (hstep : ∀ (s : State) (e : Event), P s → P (step s e)) :
    ∀ s : State, Reachable s → P s := by
  have hrun : ∀ (es : List Event) (s : State), P s → P (run s es) := by
    intro es
    induction es with
    | nil => intro s hs; rwa [run_nil]
    | cons e es ih => intro s hs; rw [run_cons]; exact ih _ (hstep s e hs)
  rintro s ⟨p, es, rfl⟩
  exact hrun es _ (hload p)

theorem live_isRunning (s : State) (hi : HandleInv s) (h : Nat)
    (hl : h ∈ s.liveIntervals) : s.isRunning = true := by
  cases hr : s.isRunning with
  | true => rfl
  | false => rw [hi.2 hr] at hl; simp at hl

theorem buttonsInv_resetTimer (s : State) : ButtonsInv (resetTimer s) := by
  simp [ButtonsInv, resetTimer, updateButtonStates, updateDisplay, getInputTime,
    clearInterval]

theorem buttonsInv_step (s : State) (e : Event) (hi : HandleInv s) (hb : ButtonsInv s) :
    ButtonsInv (step s e) := by
  cases e with
  | start =>
    simp only [step, startTimer]
    split_ifs
    · exact hb
    · simp [ButtonsInv, updateButtonStates]
  | pause =>
    simp only [step, pauseTimer]
    split_ifs
    · exact hb
    · simp [ButtonsInv, updateButtonStates, clearInterval]
  | reset => exact buttonsInv_resetTimer s
  | preset i =>
    simp only [step]
    split
    · exact buttonsInv_resetTimer _
    · exact hb
  | editMinutes v => exact buttonsInv_resetTimer _
  | editSeconds v => exact buttonsInv_resetTimer _
  | selectAlarm v => simpa [step, ButtonsInv, setAlarmSound] using hb
  | appearance b => simpa [step, ButtonsInv, darkModeChange] using hb
  | tick h =>
    simp only [step, tickCallback]
    split_ifs with hl hr
    · have hrun := live_isRunning s hi h hl
      obtain ⟨h1, h2, h3⟩ := hb
      simp only [ButtonsInv, updateDisplay, updateProgressBar_startDisabled,
        updateProgressBar_pauseDisabled, updateProgressBar_resetDisabled,
        updateProgressBar_isRunning, updateProgressBar_finished,
        updateProgressBar_remainingSeconds, updateProgressBar_totalSeconds]
      refine ⟨h1, h2, ?_⟩
      rw [h3, hrun]
      simp
    · simp [ButtonsInv, updateButtonStates, clearInterval, setAlarmSound,
        showTimerFinished, focusFirstButton]
    · exact hb
  | cueTimeout h =>
    simp only [step]
    split_ifs
    · simpa [ButtonsInv, cueCallback] using hb
    · exact hb

theorem buttonsInv_load (p : Page) : ButtonsInv (load p) := by
  simp [ButtonsInv, load, updateButtonStates, updateDisplay, setAlarmSound]

theorem buttonsInv_of_reachable (s : State) (hreach : Reachable s) : ButtonsInv s :=
  (reachable_induction (fun s => HandleInv s ∧ ButtonsInv s)
    (fun p => ⟨handleInv_load p, buttonsInv_load p⟩)
    (fun s e h => ⟨handleInv_step s e h.1, buttonsInv_step s e h.1 h.2⟩) s hreach).2

theorem displayInv_updateDisplay (s : State) (x : Num) (hr : s.remainingSeconds = x) :
    DisplayInv (updateDisplay s x) := by
  subst hr
  simp [DisplayInv, updateDisplay, updateProgressBar_eq]

theorem displayInv_resetTimer (s : State) : DisplayInv (resetTimer s) := by
  simp [DisplayInv, resetTimer, updateButtonStates, updateDisplay, getInputTime,
    clearInterval, updateProgressBar_eq]

theorem displayInv_step (s : State) (e : Event) (hd : DisplayInv s) :
    DisplayInv (step s e) := by
  cases e with
  | start =>
    simp only [step, startTimer]
    split_ifs
    · exact hd
    · simpa [DisplayInv, updateButtonStates, updateDisplay, updateProgressBar_eq] using hd
  | pause =>
    simp only [step, pauseTimer]
    split_ifs
    · exact hd
    · simpa [DisplayInv, updateButtonStates, clearInterval, updateDisplay,
        updateProgressBar_eq] using hd
  | reset => exact displayInv_resetTimer s
  | preset i =>
    simp only [step]
    split
    · exact displayInv_resetTimer _
    · exact hd
  | editMinutes v => exact displayInv_resetTimer _
  | editSeconds v => exact displayInv_resetTimer _
  | selectAlarm v =>
    simpa [step, DisplayInv, setAlarmSound, updateDisplay, updateProgressBar_eq] using hd
  | appearance b =>
    simpa [step, DisplayInv, darkModeChange, updateDisplay, updateProgressBar_eq] using hd
  | tick h =>
    simp only [step, tickCallback]
    split_ifs
    · exact displayInv_updateDisplay _ _ rfl
    · simpa [DisplayInv, updateButtonStates, clearInterval, setAlarmSound,
        showTimerFinished, focusFirstButton, updateDisplay, updateProgressBar_eq] using hd
    · exact hd
  | cueTimeout h =>
    simp only [step]
    split_ifs
    · simpa [DisplayInv, cueCallback, updateDisplay, updateProgressBar_eq] using hd
    · exact hd

theorem displayInv_load (p : Page) : DisplayInv (load p) := by
  simp [DisplayInv, load, updateButtonStates, updateDisplay, setAlarmSound,
    updateProgressBar_eq]

theorem displayInv_of_reachable (s : State) (hreach : Reachable s) : DisplayInv s :=
  reachable_induction DisplayInv displayInv_load displayInv_step s hreach

/-- What the page does on an event is either what the listener does or nothing, so
the states the page reaches are among the reachable ones. -/
theorem dispatch_reachable (s : State) (e : Event) (hreach : Reachable s) :
    Reachable (dispatch s e) := by
  unfold dispatch
  split_ifs
  · obtain ⟨p, es, rfl⟩ := hreach
    exact ⟨p, es ++ [e], by rw [run_append, run_cons, run_nil]⟩
  · exact hreach

/-! ## Finished -/

/-- C13 (counterexample): five seconds counted down to zero and then paused, with no
reset on the way: `remainingSeconds = 0` and the state is not finished, before and
after the pause.  And on the page loaded with `-1` minutes the first tick finishes
the timer at `remainingSeconds = -60`. -/
theorem zero_reached_not_finished :
    (run (load pageFive) [.start, .tick 1, .tick 1, .tick 1, .tick 1, .tick 1]
      ).remainingSeconds = .int 0 ∧
    (run (load pageFive) [.start, .tick 1, .tick 1, .tick 1, .tick 1, .tick 1]
      ).finished = false ∧
    (run (load pageFive) [.start, .tick 1, .tick 1, .tick 1, .tick 1, .tick 1, .pause]
      ).remainingSeconds = .int 0 ∧
    (run (load pageFive) [.start, .tick 1, .tick 1, .tick 1, .tick 1, .tick 1, .pause]
      ).finished = false ∧
    (run (load pageFive) [.start, .tick 1, .tick 1, .tick 1, .tick 1, .tick 1, .pause]
      ).isRunning = false ∧
    (run (load pageNegative) [.start, .tick 1]).finished = true ∧
    (run (load pageNegative) [.start, .tick 1]).remainingSeconds = .int (-60) := by
  decide!

/-- C13 (amended): in every reachable state `isRunning` and `finished` are never
both true; and in every state reachable from a load with `0 ≤ totalSeconds`,
`finished = true` implies `remainingSeconds = 0`, and an unfinished state becomes
finished by an event exactly when that event is a tick of a live interval that
finds `remainingSeconds = 0`. -/
theorem finished_by_tick_at_zero (p : Page) (es : List Event) (e : Event) :
    ¬ ((run (load p) es).isRunning = true ∧ (run (load p) es).finished = true) ∧
    (Num.le (.int 0) (load p).totalSeconds = true →
      ((run (load p) es).finished = true →
        (run (load p) es).remainingSeconds = .int 0) ∧
      ((run (load p) es).finished = false →
        ((step (run (load p) es) e).finished = true ↔
          ∃ h, e = .tick h ∧ h ∈ (run (load p) es).liveIntervals ∧
            (run (load p) es).remainingSeconds = .int 0))) := by
  have hi := handleInv_reachable p es
  refine ⟨?_, ?_⟩
  · rintro ⟨h1, h2⟩
    rw [(hi.1 h1).1] at h2
    exact absurd h2 (by decide)
  intro hp
  have hc := countInv_run es _ (countInv_load p hp)
  generalize run (load p) es = s at hi hc
  refine ⟨hc.2, ?_⟩
  intro hfin
  cases e with
  | start => simp [step, hfin]
  | pause => simp [step, hfin]
  | reset => simp [step]
  | preset i =>
    simp only [step]
    split <;> simp [presetClick, hfin]
  | editMinutes v => simp [step]
  | editSeconds v => simp [step]
  | selectAlarm v => simp [step, setAlarmSound, hfin]
  | appearance b => simp [step, darkModeChange, hfin]
  | tick h =>
    simp only [step, tickCallback]
    split_ifs with h1 h2
    · simp only [updateDisplay, updateProgressBar_finished, hfin]
      constructor
      · intro hx; exact absurd hx (by decide)
      · rintro ⟨h', he, _, hz⟩
        rw [hz] at h2
        exact absurd h2 (by decide)
    · simp only [updateButtonStates, clearInterval, setAlarmSound, showTimerFinished,
        focusFirstButton, true_iff]
      exact ⟨h, rfl, h1, eq_zero_of_not_gt _ hc.1 h2⟩
    · simp only [hfin]
      constructor
      · intro hx; exact absurd hx (by decide)
      · rintro ⟨h', he, hl, _⟩
        cases he
        exact absurd hl h1
  | cueTimeout h =>
    simp only [step]
    split_ifs <;> simp [cueCallback, hfin]

/-- C13 (witness): the five second page, five ticks after start and six ticks after
start. -/
theorem finished_by_tick_at_zero_witness :
    Num.le (.int 0) (load pageFive).totalSeconds = true ∧
    ¬ ((run (load pageFive) (.start :: List.replicate 5 (.tick 1))).isRunning = true ∧
       (run (load pageFive) (.start :: List.replicate 5 (.tick 1))).finished = true) ∧
    (step (run (load pageFive) (.start :: List.replicate 5 (.tick 1))) (.tick 1)).finished
      = true ∧
    (run (load pageFive) (.start :: List.replicate 6 (.tick 1))).remainingSeconds
      = .int 0 :=
  ⟨by decide!,
   (finished_by_tick_at_zero pageFive (.start :: List.replicate 5 (.tick 1)) (.tick 1)).1,
   (((finished_by_tick_at_zero pageFive (.start :: List.replicate 5 (.tick 1)) (.tick 1)).2
      (by decide!)).2 (by decide!)).mpr ⟨1, rfl, by decide!, by decide!⟩,
   ((finished_by_tick_at_zero pageFive (.start :: List.replicate 6 (.tick 1)) (.tick 1)).2
      (by decide!)).1 (by decide!)⟩

/-- C14: in a reachable state with `finished = true` nothing is running and no
interval is live; `startTimer` and `pauseTimer` return the state unchanged; start
and every quiet event (tick of any handle, pause, alarm selection, appearance
toggle, cue timeout) keep `finished`, `isRunning`, `remainingSeconds`,
`totalSeconds` and the number of `play()` calls; an event after which
`finished = false` is a reset click, a preset click or a duration edit, and each
of these gives `isRunning = false`, `finished = false` and
`remainingSeconds = totalSeconds`. -/
theorem finished_until_reset (s : State) (e : Event) (hreach : Reachable s)
    (hfin : s.finished = true) :
    (s.isRunning = false ∧ s.liveIntervals = [] ∧ startTimer s = s ∧ pauseTimer s = s) ∧
    (e = .start ∨ e.quiet = true →
      (step s e).finished = true ∧ (step s e).isRunning = false ∧
      (step s e).remainingSeconds = s.remainingSeconds ∧
      (step s e).totalSeconds = s.totalSeconds ∧
      (step s e).playCount = s.playCount) ∧
    ((step s e).finished = false →
      (e = .reset ∨ (∃ i, e = .preset i) ∨ (∃ v, e = .editMinutes v) ∨
        (∃ v, e = .editSeconds v)) ∧
      (step s e).isRunning = false ∧
      (step s e).remainingSeconds = (step s e).totalSeconds) ∧
    ((resetTimer s).finished = false ∧ (resetTimer s).isRunning = false ∧
      (resetTimer s).remainingSeconds = (resetTimer s).totalSeconds) := by
  have hi := handleInv_of_reachable s hreach
  have hrun : s.isRunning = false := by
    cases hr : s.isRunning with
    | false => rfl
    | true => rw [(hi.1 hr).1] at hfin; exact absurd hfin (by decide)
  have hl := hi.2 hrun
  have hst : startTimer s = s := by simp [startTimer, hfin]
  have hpa : pauseTimer s = s := by simp [pauseTimer, hrun]
  refine ⟨⟨hrun, hl, hst, hpa⟩, ?_, ?_, resetTimer_finished s, resetTimer_isRunning s,
    resetTimer_remaining_eq_total s⟩
  · intro he
    cases e with
    | start => simp [step, hst, hfin, hrun]
    | pause => simp [step, hpa, hfin, hrun]
    | reset => simp [Event.quiet] at he
    | preset i => simp [Event.quiet] at he
    | editMinutes v => simp [Event.quiet] at he
    | editSeconds v => simp [Event.quiet] at he
    | selectAlarm v => simp [step, setAlarmSound, hfin, hrun]
    | appearance b => simp [step, darkModeChange, hfin, hrun]
    | tick h => simp [step, hl, hfin, hrun]
    | cueTimeout h =>
      simp only [step]
      split_ifs <;> simp [cueCallback, hfin, hrun]
  · intro hne
    cases e with
    | start => rw [step_start, hst, hfin] at hne; exact absurd hne (by decide)
    | pause => simp [step, hpa, hfin] at hne
    | reset =>
      exact ⟨Or.inl rfl, resetTimer_isRunning s, resetTimer_remaining_eq_total s⟩
    | preset i =>
      refine ⟨Or.inr (Or.inl ⟨i, rfl⟩), ?_⟩
      simp only [step] at hne ⊢
      split at hne
      · rename_i btn hb
        simp only [hb, presetClick]
        exact ⟨resetTimer_isRunning _, resetTimer_remaining_eq_total _⟩
      · rw [hfin] at hne; exact absurd hne (by decide)
    | editMinutes v =>
      exact ⟨Or.inr (Or.inr (Or.inl ⟨v, rfl⟩)), resetTimer_isRunning _,
        resetTimer_remaining_eq_total _⟩
    | editSeconds v =>
      exact ⟨Or.inr (Or.inr (Or.inr ⟨v, rfl⟩)), resetTimer_isRunning _,
        resetTimer_remaining_eq_total _⟩
    | selectAlarm v => simp [step, setAlarmSound, hfin] at hne
    | appearance b => simp [step, darkModeChange, hfin] at hne
    | tick h => simp [step, hl, hfin] at hne
    | cueTimeout h =>
      simp only [step] at hne
      split_ifs at hne <;> simp [cueCallback, hfin] at hne

/-- C14 (witness): the five second page after its sixth tick, then a click on
start. -/
theorem finished_until_reset_witness :
    (run (load pageFive) (.start :: List.replicate 6 (.tick 1))).finished = true ∧
    startTimer (run (load pageFive) (.start :: List.replicate 6 (.tick 1)))
      = run (load pageFive) (.start :: List.replicate 6 (.tick 1)) ∧
    (resetTimer (run (load pageFive) (.start :: List.replicate 6 (.tick 1)))).finished
      = false :=
  have h := finished_until_reset (run (load pageFive) (.start :: List.replicate 6 (.tick 1)))
    .start ⟨pageFive, .start :: List.replicate 6 (.tick 1), rfl⟩ (by decide!)
  ⟨by decide!, h.1.2.2.1, h.2.2.2.1⟩

/-! ## Alarm selection -/

/-- C15: `setAlarmSound` writes `alarmSounds[alarmSelect.value]` to the `src` of the
audio element and nothing else; an alarm selection changes only the selected value
and that `src`, so `isRunning`, `finished`, `remainingSeconds`, `totalSeconds`,
the interval table, the display, every `disabled` flag and the number of `play()`
calls stay as they are; the three built-in identifiers give the three fixed
addresses. -/
theorem setAlarmSound_frame (s : State) (v : String) :
    setAlarmSound s = { s with alarmSrc := alarmSounds s.alarmSelectValue } ∧
    step s (.selectAlarm v) = { s with alarmSelectValue := v, alarmSrc := alarmSounds v } ∧
    (step s (.selectAlarm v)).alarmSrc = alarmSounds v ∧
    (step s (.selectAlarm v)).playCount = s.playCount ∧
    (step s (.selectAlarm v)).isRunning = s.isRunning ∧
    (step s (.selectAlarm v)).finished = s.finished ∧
    (step s (.selectAlarm v)).remainingSeconds = s.remainingSeconds ∧
    (step s (.selectAlarm v)).totalSeconds = s.totalSeconds ∧
    (step s (.selectAlarm v)).liveIntervals = s.liveIntervals ∧
    (step s (.selectAlarm v)).countdownText = s.countdownText ∧
    alarmSounds "alarm_clock"
      = some "https://actions.google.com/sounds/v1/alarms/alarm_clock.ogg" ∧
    alarmSounds "bell"
      = some "https://actions.google.com/sounds/v1/bells/bell_ring.ogg" ∧
    alarmSounds "digital_watch_alarm"
      = some "https://actions.google.com/sounds/v1/alarms/digital_watch_alarm_long.ogg" := by
  refine ⟨rfl, rfl, rfl, rfl, rfl, rfl, rfl, rfl, rfl, rfl, ?_, ?_, ?_⟩ <;> decide

/-! ## Button flags -/

/-- C16: in every reachable state the start button is enabled iff the timer is
neither running nor finished, the pause button iff it is running and not finished,
the reset button iff it is not finished and either running or stopped with
`remainingSeconds === totalSeconds` false; when `totalSeconds` is not NaN that is
`remainingSeconds ≠ totalSeconds`. -/
theorem button_flags (s : State) (hreach : Reachable s) :
    (s.startDisabled = false ↔ (s.isRunning = false ∧ s.finished = false)) ∧
    (s.pauseDisabled = false ↔ (s.isRunning = true ∧ s.finished = false)) ∧
    (s.resetDisabled = false ↔
      ((s.isRunning = true ∨
          (s.isRunning = false ∧
            Num.strictEq s.remainingSeconds s.totalSeconds = false)) ∧
        s.finished = false)) ∧
    (s.totalSeconds.isNaN = false →
      (s.resetDisabled = false ↔
        ((s.isRunning = true ∨
            (s.isRunning = false ∧ s.remainingSeconds ≠ s.totalSeconds)) ∧
          s.finished = false))) := by
  obtain ⟨h1, h2, h3⟩ := buttonsInv_of_reachable s hreach
  have h4 : s.resetDisabled = false ↔
      ((s.isRunning = true ∨
          (s.isRunning = false ∧
            Num.strictEq s.remainingSeconds s.totalSeconds = false)) ∧
        s.finished = false) := by
    rw [h3]
    cases s.isRunning <;> cases s.finished <;> simp
  refine ⟨?_, ?_, h4, ?_⟩
  · rw [h1]
    cases s.isRunning <;> cases s.finished <;> simp
  · rw [h2]
    cases s.isRunning <;> cases s.finished <;> simp
  · intro hn
    have e : Num.strictEq s.remainingSeconds s.totalSeconds = false ↔
        s.remainingSeconds ≠ s.totalSeconds := by
      cases ht : s.totalSeconds <;> cases hr : s.remainingSeconds <;>
        simp_all [Num.strictEq, Num.isNaN]
    rw [h4, e]

/-- C16 (witness): one tick into a five second countdown, where the tick has not
called `updateButtonStates`. -/
theorem button_flags_witness :
    (run (load pageFive) [.start, .tick 1]).remainingSeconds = .int 4 ∧
    ((run (load pageFive) [.start, .tick 1]).resetDisabled = false ↔
      (((run (load pageFive) [.start, .tick 1]).isRunning = true ∨
          ((run (load pageFive) [.start, .tick 1]).isRunning = false ∧
            (run (load pageFive) [.start, .tick 1]).remainingSeconds
              ≠ (run (load pageFive) [.start, .tick 1]).totalSeconds)) ∧
        (run (load pageFive) [.start, .tick 1]).finished = false)) :=
  ⟨by decide!,
   (button_flags (run (load pageFive) [.start, .tick 1])
     ⟨pageFive, [.start, .tick 1], rfl⟩).2.2.2 (by decide!)⟩

/-! ## Presets and validated input -/

theorem resetTimer_countdownText (s : State) :
    (resetTimer s).countdownText =
      padStart (Dbl.floor (Num.div (resetTimer s).totalSeconds (.int 60))).toJSString 2 '0'
        ++ ":" ++
        padStart (Num.mod (resetTimer s).totalSeconds (.int 60)).toJSString 2 '0' := by
  simp [resetTimer, updateButtonStates, updateDisplay, getInputTime, clearInterval]

/-- C11 (counterexample): while the five second page is running its preset buttons
are disabled, and a click on the ten minute button changes nothing:
`totalSeconds` stays 5.  And a click on an enabled preset button whose
`data-minutes` is 9007199254740993 leaves 9007199254740992 in the minutes input. -/
theorem preset_click_ignored_while_running :
    (run (load pageFive) [.start]).presetBtns.get? 2 = some ⟨"10", true⟩ ∧
    dispatch (run (load pageFive) [.start]) (.preset 2) = run (load pageFive) [.start] ∧
    (dispatch (run (load pageFive) [.start]) (.preset 2)).totalSeconds = .int 5 ∧
    (load pageOddPreset).presetBtns.get? 0 = some ⟨"9007199254740993", false⟩ ∧
    parseWhole "9007199254740993" = some 9007199254740993 ∧
    (dispatch (load pageOddPreset) (.preset 0)).minutesValue = "9007199254740992" := by
  decide!

/-- C11 (amended): a click on a preset button that is not disabled and whose
`data-minutes` reads as the whole number `m ≥ 0` with `60 * m < 2^53` leaves the
minutes input at `m`, the seconds input at `0`,
`totalSeconds = remainingSeconds = 60 * m`, `isRunning = false`,
`finished = false`, and the display at `m` padded to two digits followed by
`:00`, whatever the state before. -/
theorem preset_click (s : State) (i : Nat) (btn : PresetBtn) (m : Nat)
    (hb : s.presetBtns.get? i = some btn) (he : btn.disabled = false)
    (hd : parseWhole btn.dataMinutes = some (m : Int))
    (hm : 60 * (m : Int) < 9007199254740992) :
    (dispatch s (.preset i)).minutesValue = toString (m : Int) ∧
    (dispatch s (.preset i)).secondsValue = "0" ∧
    (dispatch s (.preset i)).totalSeconds = .int (60 * (m : Int)) ∧
    (dispatch s (.preset i)).remainingSeconds = .int (60 * (m : Int)) ∧
    (dispatch s (.preset i)).isRunning = false ∧
    (dispatch s (.preset i)).finished = false ∧
    (dispatch s (.preset i)).countdownText
      = padStart (toString (m : Int)) 2 '0' ++ ":00" := by
  have e : dispatch s (.preset i) = presetClick s btn.dataMinutes := by
    simp only [dispatch, Event.enabled, hb, he, step]
    simp
  have hz : parseWhole (Num.int 0).toJSString = some 0 := by decide
  have hm0 : claimedMinutes (some (m : Int)) = (m : Int) := by
    simp [claimedMinutes]
  have h0 : claimedSeconds (some (0 : Int)) = 0 := by decide
  obtain ⟨g1, g2⟩ := getInputTime_value
    { s with minutesValue := btn.dataMinutes, secondsValue := (Num.int 0).toJSString }
    (by simp only [hd, hz, hm0, h0]; omega)
  simp only [hd, hz, hm0, h0] at g1 g2
  have htot : (presetClick s btn.dataMinutes).totalSeconds = .int (60 * (m : Int)) := by
    rw [presetClick, resetTimer_totalSeconds, g1]
    congr 1
    ring
  have hf : Dbl.floor (Num.div (.int (60 * (m : Int))) (.int 60)) = .int (m : Int) := by
    rw [floor_div_sixty _ (by positivity) hm]
    congr 1
    exact Int.mul_ediv_cancel_left _ (by decide)
  have ht : Num.mod (.int (60 * (m : Int))) (.int 60) = .int 0 := by
    rw [mod_sixty, Int.tmod_eq_emod (by positivity) (by decide)]
    congr 1
    exact Int.mul_emod_right _ _
  have hpad : padStart (Num.int 0).toJSString 2 '0' = "00" := by decide
  rw [e]
  refine ⟨?_, ?_, htot, ?_, ?_, ?_, ?_⟩
  · rw [presetClick, resetTimer_minutesValue, g2]
  · rw [presetClick, resetTimer_secondsValue, g2]
    rfl
  · rw [presetClick, resetTimer_remaining_eq_total, ← presetClick, htot]
  · rw [presetClick, resetTimer_isRunning]
  · rw [presetClick, resetTimer_finished]
  · rw [presetClick, resetTimer_countdownText, ← presetClick, htot, hf, ht, hpad,
      toJSString_int _ (by positivity) (by omega), String.append_assoc]
    rfl

/-- C11 (witness): the ten minute preset of the sample page. -/
theorem preset_click_witness :
    (dispatch (load pageFive) (.preset 2)).countdownText = "10:00" ∧
    (dispatch (load pageFive) (.preset 2)).totalSeconds = .int 600 ∧
    (dispatch (load pageFive) (.preset 2)).secondsValue = "0" :=
  have h := preset_click (load pageFive) 2 ⟨"10", false⟩ 10 (by decide!) rfl (by decide)
    (by decide)
  ⟨h.2.2.2.2.2.2, h.2.2.1, h.2.1⟩

/-- C12 (counterexample): with 9007199254740993 in the minutes input and 0 in the
seconds input, `getInputTime` returns `9007199254740992 * 60` and leaves
9007199254740992 in the minutes input, not the integer the input reads as. -/
theorem getInputTime_rounds_minutes :
    parseWhole oddInputs.minutesValue = some 9007199254740993 ∧
    (getInputTime oddInputs).2 = .int (9007199254740992 * 60) ∧
    ¬ ((getInputTime oddInputs).2 = .int (9007199254740993 * 60 + 0)) ∧
    (getInputTime oddInputs).1.minutesValue = "9007199254740992" := by
  decide!

/-- C12 (amended): `getInputTime` is total.  With `min` the integer parsed from the
minutes input (0 if non-numeric or negative) and `sec` the integer parsed from the
seconds input (0 if non-numeric or negative, 59 if above 59), it keeps for the
minutes the double nearest to `min`, returns that double times 60 plus `sec` in
double arithmetic, rewrites the minutes input to that double and the seconds input
to exactly `sec` (which reads back as `sec`), and changes nothing else; as long as
`min * 60 + 59 < 2^53` the value returned is exactly `min * 60 + sec` and the
minutes input holds exactly `min` (which reads back as `min`). -/
theorem getInputTime_validated (s : State) :
    ((getInputTime s).2 =
        Num.add (Num.mul (roundInt (claimedMinutes (parseWhole s.minutesValue))) (.int 60))
          (.int (claimedSeconds (parseWhole s.secondsValue))) ∧
      (getInputTime s).1 =
        { s with minutesValue :=
                   (roundInt (claimedMinutes (parseWhole s.minutesValue))).toJSString
                 secondsValue := toString (claimedSeconds (parseWhole s.secondsValue)) } ∧
      parseInt (getInputTime s).1.secondsValue
        = .int (claimedSeconds (parseWhole s.secondsValue)) ∧
      0 ≤ claimedMinutes (parseWhole s.minutesValue) ∧
      0 ≤ claimedSeconds (parseWhole s.secondsValue) ∧
      claimedSeconds (parseWhole s.secondsValue) ≤ 59) ∧
    (claimedMinutes (parseWhole s.minutesValue) * 60 + 59 < 9007199254740992 →
      (getInputTime s).2 =
        .int (claimedMinutes (parseWhole s.minutesValue) * 60
          + claimedSeconds (parseWhole s.secondsValue)) ∧
      (getInputTime s).1 =
        { s with minutesValue := toString (claimedMinutes (parseWhole s.minutesValue))
                 secondsValue := toString (claimedSeconds (parseWhole s.secondsValue)) } ∧
      parseInt (getInputTime s).1.minutesValue
        = .int (claimedMinutes (parseWhole s.minutesValue))) := by
  have h0 := claimedMinutes_nonneg (parseWhole s.minutesValue)
  have hs := claimedSeconds_range (parseWhole s.secondsValue)
  obtain ⟨d1, d2⟩ := getInputTime_double s
  refine ⟨⟨d1, d2, ?_, h0, hs.1, hs.2⟩, ?_⟩
  · rw [d2]
    simp only [parseInt, parseWhole_toString_of_nonneg _ hs.1]
    exact roundInt_small _ (by rw [abs_lt]; omega)
  · intro hm
    obtain ⟨g1, g2⟩ := getInputTime_value s (by omega)
    refine ⟨g1, g2, ?_⟩
    rw [g2]
    simp only [parseInt, parseWhole_toString_of_nonneg _ h0]
    exact roundInt_small _ (by rw [abs_lt]; omega)

/-- C12 (witness): 2 in the minutes input and 75 in the seconds input give 179
seconds, and the seconds input reads back as 59. -/
theorem getInputTime_validated_witness :
    (getInputTime { load pageFive with minutesValue := "2", secondsValue := "75" }).2
      = .int 179 ∧
    parseInt
      (getInputTime { load pageFive with minutesValue := "2", secondsValue := "75" }
        ).1.secondsValue = .int 59 :=
  ⟨((getInputTime_validated
      { load pageFive with minutesValue := "2", secondsValue := "75" }).2 (by decide)).1,
   (getInputTime_validated
      { load pageFive with minutesValue := "2", secondsValue := "75" }).1.2.2.1⟩

/-! ## Progress percentage -/

/-- The percentage stored after `resetTimer` is the one `updateProgressBar` derives
from the new `totalSeconds`, with nothing elapsed. -/
theorem resetTimer_progressPercent (s : State) :
    (resetTimer s).progressPercent =
      if Num.gt (resetTimer s).totalSeconds (.int 0) then
        Dbl.mul (Num.div (Num.sub (resetTimer s).totalSeconds (resetTimer s).totalSeconds)
          (resetTimer s).totalSeconds) (toDouble 100)
      else .fin 0 := by
  simp [resetTimer, updateButtonStates, updateDisplay, getInputTime, clearInterval]

/-- C18 (counterexample): with 25 seconds on the clock and 18 left the percentage is
the double `28.000000000000004`, not the exact 28; after `resetTimer` with 400
nines in the minutes input it is NaN, not 0; and with
`totalSeconds = 18014398509481988` it is 100 although `remainingSeconds = 1`. -/
theorem percent_is_a_double :
    sevenOfTwentyFive.totalSeconds = .int 25 ∧
    sevenOfTwentyFive.remainingSeconds = .int 18 ∧
    (updateProgressBar sevenOfTwentyFive).progressPercent
      = .fin (7881299347898369 / 281474976710656) ∧
    ¬ ((7881299347898369 / 281474976710656 : ℚ) = (((25 - 18 : Int) : ℚ) / 25) * 100) ∧
    (resetTimer hugeInputs).progressPercent = .nan ∧
    percentBig.totalSeconds = .int 18014398509481988 ∧
    percentBig.remainingSeconds = .int 1 ∧
    (updateProgressBar percentBig).progressPercent = .fin 100 := by
  refine ⟨?_, ?_, ?_, by norm_num, ?_, ?_, ?_, ?_⟩ <;> decide!

/-- C18 (amended): the percentage `updateProgressBar` computes is 0 when
`totalSeconds` is 0; for whole `totalSeconds = tot` and `remainingSeconds = rem`
with `0 < tot < 2^53` and `0 ≤ rem ≤ tot` it is the double
`((tot - rem) / tot) * 100` with both operations rounded to the nearest double,
which is within `2^-46` of the exact rational, lies in `[0, 100]`, and is 100
exactly when `rem = 0`; and the percentage stored after `resetTimer` in any state
`t` is 0 unless the new `totalSeconds` is infinite. -/
theorem progress_percent (s t : State) :
    (s.totalSeconds = .int 0 → (updateProgressBar s).progressPercent = .fin 0) ∧
    (∀ tot rem : Int, s.totalSeconds = .int tot → s.remainingSeconds = .int rem →
      0 < tot → tot < 9007199254740992 → 0 ≤ rem → rem ≤ tot →
      ∃ z : ℚ, (updateProgressBar s).progressPercent = .fin z ∧
        Dbl.mul (toDouble (((tot - rem : Int) : ℚ) / (tot : ℚ))) (toDouble 100) = .fin z ∧
        |z - ((tot - rem : Int) : ℚ) / (tot : ℚ) * 100| ≤ 1 / 70368744177664 ∧
        0 ≤ z ∧ z ≤ 100 ∧ (z = 100 ↔ rem = 0)) ∧
    ((resetTimer t).totalSeconds ≠ .posInf → (resetTimer t).progressPercent = .fin 0) := by
  refine ⟨?_, ?_, ?_⟩
  · intro h
    have g : Num.gt (.int 0) (.int 0) = false := by decide
    rw [updateProgressBar_progressPercent, h, g]
    rfl
  · intro tot rem ht hr h0 hb hr0 hrt
    obtain ⟨z, hz, rest⟩ := percent_value tot rem h0 hb hr0 hrt
    refine ⟨z, ?_, hz, rest⟩
    have g : Num.gt (.int tot) (.int 0) = true := by simpa [Num.gt, Num.lt] using h0
    have e1 : Num.sub (.int tot) (.int rem) = .int (tot - rem) :=
      roundInt_small _ (by rw [abs_lt]; omega)
    have e2 : Num.div (.int (tot - rem)) (.int tot)
        = toDouble (((tot - rem : Int) : ℚ) / (tot : ℚ)) := by
      simp only [Num.div]
      rw [if_neg (by omega)]
    rw [updateProgressBar_progressPercent, ht, hr, g, if_pos rfl, e1, e2, hz]
  · intro hfin
    rw [resetTimer_progressPercent]
    rcases le_zero_cases _ (resetTimer_total_nonneg t) with e | ⟨v, hv, e⟩
    · exact absurd e hfin
    · rw [e]
      rcases eq_or_lt_of_le hv with hz | hpos
      · subst hz
        rfl
      · have g : Num.gt (.int v) (.int 0) = true := by simpa [Num.gt, Num.lt] using hpos
        have e1 : Num.sub (.int v) (.int v) = .int 0 := by
          simp only [Num.sub, sub_self]
          exact roundInt_small 0 (by norm_num)
        have e2 : Num.div (.int 0) (.int v) = .fin 0 := by
          simp only [Num.div]
          rw [if_neg (by omega)]
          simp [toDouble_zero]
        rw [g, if_pos rfl, e1, e2, toDouble_hundred]
        simp only [Dbl.mul]
        rw [show (0 : ℚ) * 100 = 0 by norm_num, toDouble_zero]

/-- C18 (witness): two ticks into a five second countdown, and a reset of the five
second page. -/
theorem progress_percent_witness :
    (∃ z : ℚ,
      (updateProgressBar (run (load pageFive) [.start, .tick 1, .tick 1])).progressPercent
        = .fin z ∧
      Dbl.mul (toDouble (((5 - 3 : Int) : ℚ) / ((5 : Int) : ℚ))) (toDouble 100) = .fin z ∧
      |z - ((5 - 3 : Int) : ℚ) / ((5 : Int) : ℚ) * 100| ≤ 1 / 70368744177664 ∧
      0 ≤ z ∧ z ≤ 100 ∧ (z = 100 ↔ (3 : Int) = 0)) ∧
    (resetTimer (load pageFive)).progressPercent = .fin 0 :=
  have h := progress_percent (run (load pageFive) [.start, .tick 1, .tick 1])
    (load pageFive)
  ⟨h.2.1 5 3 (by decide!) (by decide!) (by decide) (by decide) (by decide) (by decide),
   h.2.2 (by decide!)⟩

/-! ## Format of the display -/

theorem toString_natCast (m : Nat) : toString ((m : Nat) : Int) = toString m := rfl

theorem toString_data (m : Nat) :
    (toString m).data = Nat.toDigitsCore 10 (m + 1) m [] := rfl

theorem digitsValue_toString (m : Nat) : digitsValue (toString m).data = m := by
  rw [toString_data]
  exact (toDigitsCore_spec (m + 1) m (Nat.lt_succ_self m)).1

theorem toString_length_pos (m : Nat) : 1 ≤ (toString m).length := by
  have h := (toDigitsCore_spec (m + 1) m (Nat.lt_succ_self m)).2.2
  rw [← toString_data] at h
  show 1 ≤ (toString m).data.length
  exact Nat.one_le_iff_ne_zero.mpr (fun h0 => h (List.length_eq_zero.mp h0))

theorem toString_length_le_two (m : Nat) (hm : m < 100) : (toString m).length ≤ 2 :=
  Nat.repr_length m 2 (by decide) (by simpa using hm)

theorem digitsValue_zeros (j : Nat) (l : List Char) :
    digitsValue (List.replicate j '0' ++ l) = digitsValue l := by
  induction j with
  | zero => simp
  | succ j ih =>
    have e : digitsValue ('0' :: (List.replicate j '0' ++ l))
        = digitsValue (List.replicate j '0' ++ l) := by
      simp [digitsValue]
    rw [List.replicate_succ, List.cons_append, e, ih]

theorem padStart_data (str : String) (w : Nat) (c : Char) :
    (padStart str w c).data = List.replicate (w - str.length) c ++ str.data := by
  simp [padStart]

theorem padStart_length (str : String) (w : Nat) (c : Char) :
    (padStart str w c).length = (w - str.length) + str.length := by
  show (padStart str w c).data.length = _
  rw [padStart_data, List.length_append, List.length_replicate]
  rfl

theorem padStart_digits (m : Nat) :
    ∀ c ∈ (padStart (toString m) 2 '0').data, c.isDigit = true := by
  intro c hc
  rw [padStart_data] at hc
  rcases List.mem_append.mp hc with h | h
  · rw [List.eq_of_mem_replicate h]; decide
  · rw [toString_data] at h
    exact (toDigitsCore_spec (m + 1) m (Nat.lt_succ_self m)).2.1 c h

/-- Below `2^53` the two parts of the display are the decimal numerals of the whole
quotient and the remainder. -/
theorem updateDisplay_text (s : State) (n : Nat) (hn : (n : Int) < 9007199254740992) :
    (updateDisplay s (.int (n : Int))).countdownText =
      padStart (toString (n / 60)) 2 '0' ++ ":" ++ padStart (toString (n % 60)) 2 '0' := by
  have hf : Dbl.floor (Num.div (.int (n : Int)) (.int 60)) = .int ((n / 60 : Nat) : Int) := by
    rw [floor_div_sixty _ (by positivity) hn]
    exact congrArg Num.int (Int.ofNat_ediv n 60).symm
  have ht : Num.mod (.int (n : Int)) (.int 60) = .int ((n % 60 : Nat) : Int) := by
    rw [mod_sixty, Int.tmod_eq_emod (by positivity) (by decide)]
    exact congrArg Num.int (Int.ofNat_emod n 60).symm
  have t1 : (Num.int ((n / 60 : Nat) : Int)).toJSString = toString (n / 60) := by
    rw [toJSString_int _ (by positivity) (by omega), toString_natCast]
  have t2 : (Num.int ((n % 60 : Nat) : Int)).toJSString = toString (n % 60) := by
    rw [toJSString_int _ (by positivity) (by omega), toString_natCast]
  simp only [updateDisplay, updateProgressBar_countdownText, hf, ht, t1, t2]

/-- C17 (counterexample): at the whole double 288230376151712192 the minutes part
of the display is 4803839602528537, one more than the whole quotient by 60. -/
theorem display_rounds_large_quotient :
    (updateDisplay (load pageFive) (.int 288230376151712192)).countdownText
      = "4803839602528537:32" ∧
    (288230376151712192 : Nat) / 60 = 4803839602528536 ∧
    ¬ ((updateDisplay (load pageFive) (.int 288230376151712192)).countdownText
      = padStart (toString ((288230376151712192 : Nat) / 60)) 2 '0' ++ ":" ++
        padStart (toString ((288230376151712192 : Nat) % 60)) 2 '0') := by
  decide!

/-- C17 (amended): for every whole number of seconds `n` with `0 ≤ n < 2^53`,
`updateDisplay` writes
`M ++ ":" ++ S` where `M` is the decimal numeral of `n / 60` padded on the left with
`0` (at least two characters, value `n / 60`) and `S` the decimal numeral of
`n % 60` padded on the left with `0` (exactly two characters, value `n % 60`),
both made of digits only; for
`n < 6000` the text has five characters, the third is the colon, and sixty times
the value of the first two plus the value of the last two is `n`. -/
theorem display_format (s : State) (n : Nat) (hb : (n : Int) < 9007199254740992) :
    (updateDisplay s (.int (n : Int))).countdownText =
      padStart (toString (n / 60)) 2 '0' ++ ":" ++ padStart (toString (n % 60)) 2 '0' ∧
    2 ≤ (padStart (toString (n / 60)) 2 '0').length ∧
    digitsValue (padStart (toString (n / 60)) 2 '0').data = n / 60 ∧
    (padStart (toString (n % 60)) 2 '0').length = 2 ∧
    digitsValue (padStart (toString (n % 60)) 2 '0').data = n % 60 ∧
    (∀ c ∈ (padStart (toString (n / 60)) 2 '0').data, c.isDigit = true) ∧
    (∀ c ∈ (padStart (toString (n % 60)) 2 '0').data, c.isDigit = true) ∧
    (n < 6000 →
      (updateDisplay s (.int (n : Int))).countdownText.length = 5 ∧
      (updateDisplay s (.int (n : Int))).countdownText.data.get? 2 = some ':' ∧
      60 * digitsValue ((updateDisplay s (.int (n : Int))).countdownText.data.take 2)
        + digitsValue ((updateDisplay s (.int (n : Int))).countdownText.data.drop 3) = n) := by
  have htext := updateDisplay_text s n hb
  have hM1 := toString_length_pos (n / 60)
  have hS1 := toString_length_pos (n % 60)
  have hS2 := toString_length_le_two (n % 60) (by omega)
  have hMv : digitsValue (padStart (toString (n / 60)) 2 '0').data = n / 60 := by
    rw [padStart_data, digitsValue_zeros, digitsValue_toString]
  have hSv : digitsValue (padStart (toString (n % 60)) 2 '0').data = n % 60 := by
    rw [padStart_data, digitsValue_zeros, digitsValue_toString]
  have hSl : (padStart (toString (n % 60)) 2 '0').length = 2 := by
    rw [padStart_length]; omega
  refine ⟨htext, by rw [padStart_length]; omega, hMv, hSl, hSv, padStart_digits _,
    padStart_digits _, ?_⟩
  intro hn
  have hM2 := toString_length_le_two (n / 60) (by omega)
  have hMl : (padStart (toString (n / 60)) 2 '0').length = 2 := by
    rw [padStart_length]; omega
  have hdata : (updateDisplay s (.int (n : Int))).countdownText.data =
      (padStart (toString (n / 60)) 2 '0').data ++
        ':' :: (padStart (toString (n % 60)) 2 '0').data := by
    rw [htext]
    simp [String.data_append]
  have hMl' : (padStart (toString (n / 60)) 2 '0').data.length = 2 := hMl
  have hSl' : (padStart (toString (n % 60)) 2 '0').data.length = 2 := hSl
  refine ⟨?_, ?_, ?_⟩
  · show (updateDisplay s (.int (n : Int))).countdownText.data.length = 5
    rw [hdata]
    simp [hMl', hSl']
  · rw [hdata, List.get?_eq_getElem?, List.getElem?_append_right (by omega), hMl']
    simp
  · rw [hdata]
    have e1 : List.take 2 ((padStart (toString (n / 60)) 2 '0').data ++
        ':' :: (padStart (toString (n % 60)) 2 '0').data)
        = (padStart (toString (n / 60)) 2 '0').data := by
      exact List.take_left' hMl'
    have e2 : List.drop 3 ((padStart (toString (n / 60)) 2 '0').data ++
        ':' :: (padStart (toString (n % 60)) 2 '0').data)
        = (padStart (toString (n % 60)) 2 '0').data := by
      rw [List.drop_append_eq_append_drop, hMl']
      simp [List.drop_eq_nil_of_le, hMl']
    rw [e1, e2, hMv, hSv]
    omega

/-- C17 (witness): 125 seconds read `02:05`. -/
theorem display_format_witness :
    (updateDisplay (load pageFive) (.int ((125 : Nat) : Int))).countdownText = "02:05" ∧
    (updateDisplay (load pageFive) (.int ((125 : Nat) : Int))).countdownText.length = 5 ∧
    60 * digitsValue
        ((updateDisplay (load pageFive) (.int ((125 : Nat) : Int))).countdownText.data.take 2)
      + digitsValue
        ((updateDisplay (load pageFive) (.int ((125 : Nat) : Int))).countdownText.data.drop 3)
      = 125 :=
  have h := (display_format (load pageFive) 125 (by decide)).2.2.2.2.2.2.2 (by decide)
  ⟨by decide!, h.1, h.2.2⟩

/-! ## Display and progress are never stale -/

/-- C19: in every reachable state the display text is the formatting
`updateDisplay` gives the current `remainingSeconds` (for a whole
`remainingSeconds = n` below `2^53` the decimal numerals of `n / 60` and `n % 60`,
each padded to two digits), and the stored percentage and the classes `red` and
`yellow` are the ones `updateProgressBar` derives from the current `totalSeconds`
and `remainingSeconds`. -/
theorem display_never_stale (s : State) (hreach : Reachable s) :
    s.countdownText =
      padStart (Dbl.floor (Num.div s.remainingSeconds (.int 60))).toJSString 2 '0'
        ++ ":" ++
        padStart (Num.mod s.remainingSeconds (.int 60)).toJSString 2 '0' ∧
    (∀ n : Nat, s.remainingSeconds = .int (n : Int) → (n : Int) < 9007199254740992 →
      s.countdownText =
        padStart (toString (n / 60)) 2 '0' ++ ":" ++ padStart (toString (n % 60)) 2 '0') ∧
    s.progressPercent =
      (if Num.gt s.totalSeconds (.int 0) then
        Dbl.mul (Num.div (Num.sub s.totalSeconds s.remainingSeconds) s.totalSeconds)
          (toDouble 100)
      else .fin 0) ∧
    s.red = (Num.gt s.totalSeconds (.int 0) &&
      Dbl.le (Num.div s.remainingSeconds s.totalSeconds) (toDouble (33 / 100))) ∧
    s.yellow = (Num.gt s.totalSeconds (.int 0) &&
      !Dbl.le (Num.div s.remainingSeconds s.totalSeconds) (toDouble (33 / 100)) &&
      Dbl.le (Num.div s.remainingSeconds s.totalSeconds) (toDouble (66 / 100))) := by
  obtain ⟨h1, h2, h3, h4⟩ := displayInv_of_reachable s hreach
  refine ⟨?_, ?_, ?_, ?_, ?_⟩
  · rw [h1]; simp [updateDisplay]
  · intro n hn hb
    rw [h1, hn]
    exact updateDisplay_text s n hb
  · rw [h2]; simp [updateDisplay]
  · rw [h3]; simp [updateDisplay, updateProgressBar_red]
  · rw [h4]; simp [updateDisplay, updateProgressBar_yellow]

/-- C19 (witness): a five second countdown paused after two ticks shows the numerals
of `3 / 60` and `3 % 60`, that is `00:03`. -/
theorem display_never_stale_witness :
    (run (load pageFive) [.start, .tick 1, .tick 1, .pause]).remainingSeconds = .int 3 ∧
    (run (load pageFive) [.start, .tick 1, .tick 1, .pause]).countdownText =
      padStart (toString (3 / 60)) 2 '0' ++ ":" ++ padStart (toString (3 % 60)) 2 '0' ∧
    (run (load pageFive) [.start, .tick 1, .tick 1, .pause]).countdownText = "00:03" :=
  ⟨by decide!,
   (display_never_stale (run (load pageFive) [.start, .tick 1, .tick 1, .pause])
     ⟨pageFive, [.start, .tick 1, .tick 1, .pause], rfl⟩).2.1 3 (by decide!) (by decide),
   by decide!⟩

/-! ## How many ticks a countdown takes -/

/-- What `k` ticks of a live interval leave alone while there is time left. -/
theorem run_ticks_fields (h : Nat) (k : Nat) (u : State) (v : Int)
    (hl : h ∈ u.liveIntervals) (hv : u.remainingSeconds = .int v) (hk : (k : Int) ≤ v)
    (hb : v < 9007199254740992) :
    (run u (List.replicate k (.tick h))).remainingSeconds = .int (v - k) ∧
    (run u (List.replicate k (.tick h))).totalSeconds = u.totalSeconds ∧
    (run u (List.replicate k (.tick h))).isRunning = u.isRunning ∧
    (run u (List.replicate k (.tick h))).finished = u.finished ∧
    (run u (List.replicate k (.tick h))).liveIntervals = u.liveIntervals ∧
    (run u (List.replicate k (.tick h))).timer = u.timer ∧
    (run u (List.replicate k (.tick h))).playCount = u.playCount ∧
    (run u (List.replicate k (.tick h))).alarmSelectValue = u.alarmSelectValue := by
  cases k with
  | zero => simp [run_nil, hv]
  | succ j =>
    rw [run_ticks h j u v hl hv (by push_cast at hk; omega) hb]
    simp [updateDisplay]

/-- A tick at `remainingSeconds = 18014398509481988` leaves that value: the
neighbouring doubles are 4 apart. -/
theorem stuck_step (h : Nat) (u : State) (hl : h ∈ u.liveIntervals)
    (hv : u.remainingSeconds = .int 18014398509481988) :
    h ∈ (step u (.tick h)).liveIntervals ∧
    (step u (.tick h)).remainingSeconds = .int 18014398509481988 ∧
    (step u (.tick h)).finished = u.finished := by
  have g : Num.gt u.remainingSeconds (.int 0) = true := by rw [hv]; decide
  have e : Num.sub (.int 18014398509481988) (.int 1) = .int 18014398509481988 := by
    decide!
  rw [step_tick_pos u h hl g, hv, e]
  simp [updateDisplay, hl]

theorem stuck_run (h : Nat) (k : Nat) : ∀ u : State, h ∈ u.liveIntervals →
    u.remainingSeconds = .int 18014398509481988 →
    (run u (List.replicate k (.tick h))).remainingSeconds = .int 18014398509481988 ∧
    (run u (List.replicate k (.tick h))).finished = u.finished := by
  induction k with
  | zero => intro u _ hv; simp [run_nil, hv]
  | succ k ih =>
    intro u hl hv
    obtain ⟨a, b, c⟩ := stuck_step h u hl hv
    rw [List.replicate_succ, run_cons]
    obtain ⟨d, e⟩ := ih _ a b
    exact ⟨d, by rw [e, c]⟩

/-- C20 (counterexample): from the stopped state with
`remainingSeconds = totalSeconds = 18014398509481988`, after `startTimer` and that
many ticks `remainingSeconds` is still 18014398509481988, and one tick more has not
finished the timer. -/
theorem countdown_stuck_above_two_pow_54 :
    stuckIdle.remainingSeconds = .int 18014398509481988 ∧
    stuckIdle.totalSeconds = .int 18014398509481988 ∧
    stuckIdle.isRunning = false ∧
    stuckIdle.finished = false ∧
    (run stuckIdle (.start :: List.replicate 18014398509481988 (.tick 1))).remainingSeconds
      = .int 18014398509481988 ∧
    (run stuckIdle (.start :: List.replicate (18014398509481988 + 1) (.tick 1))).finished
      = false := by
  have hl : 1 ∈ (startTimer stuckIdle).liveIntervals := by decide!
  have hv : (startTimer stuckIdle).remainingSeconds = .int 18014398509481988 := by decide!
  have hf : (startTimer stuckIdle).finished = false := by decide!
  refine ⟨by decide!, by decide!, by decide!, by decide!, ?_, ?_⟩
  · rw [run_cons, step_start]
    exact (stuck_run 1 _ _ hl hv).1
  · rw [run_cons, step_start, (stuck_run 1 _ _ hl hv).2, hf]

/-- C20 (amended): from a reachable state that is stopped and unfinished with
`remainingSeconds = n < 2^53` (whatever `totalSeconds` is, so also when it is `n`),
after `startTimer` and `k ≤ n` ticks the
timer is running, unfinished, at `n - k` seconds and the alarm has not been
played; the tick number `n + 1` leaves no live interval, `isRunning = false`,
`finished = true`, the alarm source taken from the current selection and one
more call of `play()`. -/
theorem countdown_takes_one_more_tick (s : State) (n : Nat) (hreach : Reachable s)
    (hrun : s.isRunning = false) (hfin : s.finished = false)
    (hrem : s.remainingSeconds = .int (n : Int)) (hb : (n : Int) < 9007199254740992) :
    (∀ k : Nat, k ≤ n →
      (run s (.start :: List.replicate k (.tick s.nextHandle))).isRunning = true ∧
      (run s (.start :: List.replicate k (.tick s.nextHandle))).finished = false ∧
      (run s (.start :: List.replicate k (.tick s.nextHandle))).remainingSeconds
        = .int ((n : Int) - k) ∧
      (run s (.start :: List.replicate k (.tick s.nextHandle))).playCount
        = s.playCount) ∧
    ((run s (.start :: List.replicate (n + 1) (.tick s.nextHandle))).isRunning = false ∧
     (run s (.start :: List.replicate (n + 1) (.tick s.nextHandle))).finished = true ∧
     (run s (.start :: List.replicate (n + 1) (.tick s.nextHandle))).remainingSeconds
       = .int 0 ∧
     (run s (.start :: List.replicate (n + 1) (.tick s.nextHandle))).liveIntervals
       = [] ∧
     (run s (.start :: List.replicate (n + 1) (.tick s.nextHandle))).alarmSrc
       = alarmSounds s.alarmSelectValue ∧
     (run s (.start :: List.replicate (n + 1) (.tick s.nextHandle))).playCount
       = s.playCount + 1) := by
  have hi := handleInv_of_reachable s hreach
  have hst := startTimer_stopped s hrun hfin
  have hlive : (startTimer s).liveIntervals = [s.nextHandle] := by
    rw [hst]; simp [hi.2 hrun]
  have htimer : (startTimer s).timer = some s.nextHandle := by rw [hst]
  have hisr : (startTimer s).isRunning = true := by rw [hst]; simp [updateButtonStates]
  have hpc : (startTimer s).playCount = s.playCount := by
    rw [hst]; simp [updateButtonStates]
  have hsel : (startTimer s).alarmSelectValue = s.alarmSelectValue := by
    rw [hst]; simp [updateButtonStates]
  have hmem : s.nextHandle ∈ (startTimer s).liveIntervals := by rw [hlive]; simp
  have fields : ∀ k : Nat, k ≤ n → _ := fun k hk =>
    run_ticks_fields s.nextHandle k (startTimer s) (n : Int) hmem
      (by rw [startTimer_remainingSeconds, hrem]) (by exact_mod_cast hk) hb
  refine ⟨?_, ?_⟩
  · intro k hk
    obtain ⟨f1, _, f3, f4, _, _, f7, _⟩ := fields k hk
    rw [run_cons, step_start]
    refine ⟨by rw [f3, hisr], by rw [f4, startTimer_finished, hfin],
      f1, by rw [f7, hpc]⟩
  · obtain ⟨f1, _, _, _, f5, f6, f7, f8⟩ := fields n (le_refl n)
    have e : run s (.start :: List.replicate (n + 1) (.tick s.nextHandle)) =
        step (run (startTimer s) (List.replicate n (.tick s.nextHandle)))
          (.tick s.nextHandle) := by
      rw [List.replicate_succ', ← List.cons_append, run_append, run_cons _ _ [], run_nil,
        run_cons, step_start]
    rw [sub_self] at f1
    rw [hlive] at f5
    rw [htimer] at f6
    rw [hpc] at f7
    rw [hsel] at f8
    rw [e]
    generalize run (startTimer s) (List.replicate n (.tick s.nextHandle)) = v
      at f1 f5 f6 f7 f8
    have g : Num.gt (.int 0) (.int 0) = false := by decide
    simp [step, tickCallback, f1, g, f5, f6, f7, f8, updateButtonStates, clearInterval,
      clearHandle, setAlarmSound, showTimerFinished, focusFirstButton]

/-- C20 (witness): the five second page takes six ticks, and a page loaded with
nothing on the clock takes one. -/
theorem countdown_takes_one_more_tick_witness :
    (run (load pageFive)
      (.start :: List.replicate (5 + 1) (.tick (load pageFive).nextHandle))).finished
        = true ∧
    (run (load pageZero)
      (.start :: List.replicate (0 + 1) (.tick (load pageZero).nextHandle))).finished
        = true :=
  ⟨(countdown_takes_one_more_tick (load pageFive) 5 ⟨pageFive, [], rfl⟩ (by decide!)
      (by decide!) (by decide!) (by decide)).2.2.1,
   (countdown_takes_one_more_tick (load pageZero) 0 ⟨pageZero, [], rfl⟩ (by decide!)
      (by decide!) (by decide!) (by decide)).2.2.1⟩

end EggTimer
